import Mathlib

/-!
# Verification of the RowingModel bot core logic

A shallow embedding of the core computational logic of the RowingModel
Telegram bot (src/index.js, src/bot/excel.js): the time codec
(parseTimeToSeconds / formatTime), the percentage calculator
(calculateModelPercentage), the conversation state handlers for cancel,
time entry and edit-last-time, the vocabulary matching, and the Excel
report exporter (createExcelFile).

JavaScript numbers are modelled by rationals (ℚ), with NaN / undefined
modelled by Option ℚ where the source can produce them.  String-to-number
conversions (Number, parseFloat, parseInt) are modelled for decimal
numerals with optional sign and fractional part; exotic JS numeral forms
(hexadecimal, exponent notation, Infinity) do not occur in this domain and
are out of scope of the model.  Character comparisons are written on
Unicode code points: 43 is the plus sign, 45 the hyphen-minus, 46 the full
stop, 58 the colon, 48 to 57 the decimal digits.
-/

/-- JS-style rounding of a rational to 2 decimal places:
Math.round(q * 100) / 100, with Math.round x = ⌊x + 1/2⌋. -/
def round2 (q : ℚ) : ℚ := ((⌊q * 100 + 1 / 2⌋ : ℤ) : ℚ) / 100

/-- 10 ^ k as a rational (recursively, so it unfolds step by step). -/
def pow10 : ℕ → ℚ
  | 0 => 1
  | k + 1 => 10 * pow10 k

/-- Average of a list of numbers, as in the avg helper of src/index.js:
empty input gives 0, otherwise sum divided by length. -/
def avg (l : List ℚ) : ℚ := if l.isEmpty then 0 else l.sum / l.length

/-- Decimal digit test on the code point, as in JS numeric parsing. -/
def isDigitB (c : Char) : Bool := decide (48 ≤ c.toNat) && decide (c.toNat ≤ 57)

/-- Whitespace test covering the JS whitespace characters that can occur
here: space, tab, line feed, carriage return. -/
def isWs (c : Char) : Bool :=
  decide (c.toNat = 32) || decide (c.toNat = 9) || decide (c.toNat = 10) ||
    decide (c.toNat = 13)

/-- Value of a list of decimal digit characters, most significant first. -/
def digitsToNat (l : List Char) : ℕ :=
  l.foldl (fun a c => a * 10 + (c.toNat - 48)) 0

/-- Split a character list into its longest prefix of decimal digits and
the remainder. -/
def splitDigits : List Char → List Char × List Char
  | [] => ([], [])
  | c :: rest =>
    if isDigitB c then
      let p := splitDigits rest
      (c :: p.1, p.2)
    else ([], c :: rest)

/-- String.prototype.split with a single-character separator, given by its
code point: mirrors JS split semantics ("".split gives [""], separators at
the ends give empty groups). -/
def splitOnCode (code : ℕ) : List Char → List (List Char)
  | [] => [[]]
  | c :: rest =>
    let r := splitOnCode code rest
    if c.toNat = code then [] :: r
    else
      match r with
      | g :: gs => (c :: g) :: gs
      | [] => [[c]]

/-- Trim whitespace from both ends, as Number does before converting. -/
def trimWs (l : List Char) : List Char :=
  ((l.dropWhile isWs).reverse.dropWhile isWs).reverse

/-- Consume an optional leading sign, returning the sign as a rational. -/
def signSplit : List Char → ℚ × List Char
  | [] => (1, [])
  | c :: rest =>
    if c.toNat = 43 then (1, rest)
    else if c.toNat = 45 then (-1, rest)
    else (1, c :: rest)

/-- The rational denoted by a sign, an integer digit group and a
fractional digit group. -/
def decCombine (sg : ℚ) (ip fp : List Char) : ℚ :=
  sg * ((digitsToNat ip : ℚ) + (digitsToNat fp : ℚ) / pow10 fp.length)

/-- Value of an unsigned decimal numeral that must span the whole list:
digits, digits.digits, .digits or digits. (at least one digit overall).
none models NaN. -/
def decValue (l : List Char) : Option (List Char × List Char) :=
  let p := splitDigits l
  match p.2 with
  | [] => if p.1.isEmpty then none else some (p.1, [])
  | c :: rest2 =>
    if c.toNat = 46 then
      let q := splitDigits rest2
      if q.2.isEmpty then
        if p.1.isEmpty && q.1.isEmpty then none
        else some (p.1, q.1)
      else none
    else none

/-- JS Number(string) on decimal numerals: trims whitespace, empty string
is 0, otherwise the whole remaining string must be a signed decimal
numeral; none models NaN. -/
def jsNumber (s : String) : Option ℚ :=
  let t := trimWs s.toList
  if t.isEmpty then some 0
  else
    let sr := signSplit t
    (decValue sr.2).map (fun p => decCombine sr.1 p.1 p.2)

/-- JS parseFloat on decimal numerals: skips leading whitespace, reads an
optional sign and the longest prefix of the form digits[.digits], ignores
trailing junk; none models NaN (no digit found). -/
def jsParseFloat (s : String) : Option ℚ :=
  let t := s.toList.dropWhile isWs
  let sr := signSplit t
  let p := splitDigits sr.2
  let fp : List Char :=
    match p.2 with
    | c :: r => if c.toNat = 46 then (splitDigits r).1 else []
    | [] => []
  if p.1.isEmpty && fp.isEmpty then none
  else some (decCombine sr.1 p.1 fp)

/-- JS parseInt (radix 10) on decimal numerals: skips leading whitespace,
reads an optional sign and the longest digit prefix; none models NaN. -/
def jsParseInt (s : String) : Option ℚ :=
  let t := s.toList.dropWhile isWs
  let sr := signSplit t
  let p := splitDigits sr.2
  if p.1.isEmpty then none else some (decCombine sr.1 p.1 [])

/-- The full stop character, used when the three-group branch rejoins the
second and third dot-separated groups with a decimal point. -/
def dotChar : Char := '.'

/-- parseTimeToSeconds from src/index.js.  A string containing a colon is
split on colons and the first two groups are converted with Number
(minutes, seconds); a string splitting into exactly three dot-separated
groups has its first group converted with parseInt (minutes) and the last
two rejoined with a dot and converted with parseFloat (seconds); any other
string is converted with parseFloat and the result rounded to 2 decimal
places.  Any NaN yields 0.  Only the plain-seconds branch rounds. -/
def parseTimeToSeconds (timeStr : String) : ℚ :=
  let chars := timeStr.toList
  if chars.any (fun c => decide (c.toNat = 58)) then
    match (splitOnCode 58 chars).map (fun g => jsNumber (String.mk g)) with
    | some m :: some sec :: _ => m * 60 + sec
    | _ => 0
  else if (splitOnCode 46 chars).length = 3 then
    match splitOnCode 46 chars with
    | p0 :: p1 :: p2 :: [] =>
      match jsParseInt (String.mk p0), jsParseFloat (String.mk (p1 ++ dotChar :: p2)) with
      | some m, some sec => m * 60 + sec
      | _, _ => 0
    | _ => 0
  else
    match jsParseFloat timeStr with
    | none => 0
    | some q => round2 q

/-- Decimal digit characters of a natural number, most significant first;
fuel-driven so that it reduces in the kernel.  Fuel n+1 always suffices. -/
def natDecCharsAux : ℕ → ℕ → List Char
  | 0, _ => []
  | fuel + 1, n =>
    if n < 10 then [Nat.digitChar n]
    else natDecCharsAux fuel (n / 10) ++ [Nat.digitChar (n % 10)]

/-- Decimal digit characters of a natural number, most significant first. -/
def natDecChars (n : ℕ) : List Char := natDecCharsAux (n + 1) n

/-- Decimal string of a natural number. -/
def natDecStr (n : ℕ) : String := String.mk (natDecChars n)

/-- Decimal string of an integer. -/
def intDecStr (i : ℤ) : String :=
  if i < 0 then "-" ++ natDecStr (-i).toNat else natDecStr i.toNat

/-- Zero-pad a natural number below 100 to two digits, as toFixed(2) does
for the fractional part. -/
def pad2str (k : ℕ) : String :=
  if k < 10 then "0" ++ natDecStr k else natDecStr k

/-- Number.prototype.toFixed(2): round to the nearest hundredth (ties
toward positive infinity on the scaled value) and print with exactly two
fractional digits. -/
def toFixed2 (q : ℚ) : String :=
  let n : ℤ := ⌊q * 100 + 1 / 2⌋
  if n < 0 then "-" ++ natDecStr ((-n).toNat / 100) ++ "." ++ pad2str ((-n).toNat % 100)
  else natDecStr (n.toNat / 100) ++ "." ++ pad2str (n.toNat % 100)

/-- String.prototype.padStart(5, "0"). -/
def padStart5 (s : String) : String :=
  let l := s.toList
  if l.length < 5 then String.mk (List.replicate (5 - l.length) '0') ++ s else s

/-- Truncation toward zero, the rounding JS uses for the % operator. -/
def ratTrunc (q : ℚ) : ℤ := if 0 ≤ q then ⌊q⌋ else -⌊-q⌋

/-- The JS remainder operator x % y (sign follows the dividend). -/
def jsMod (x y : ℚ) : ℚ := x - y * ((ratTrunc (x / y) : ℤ) : ℚ)

/-- formatTime from src/index.js: minutes = Math.floor(seconds / 60),
remainder = (seconds % 60).toFixed(2) zero-padded to width 5, joined with
a colon.  (The try/catch in the source can never fire in this pure
model.) -/
def formatTime (seconds : ℚ) : String :=
  let minutes : ℤ := ⌊seconds / 60⌋
  let remStr := padStart5 (toFixed2 (jsMod seconds 60))
  intDecStr minutes ++ ":" ++ remStr

/-- JS falsiness of an optional number: undefined, or 0.  (NaN, also
falsy, is represented by none in this model.) -/
def jsFalsy : Option ℚ → Bool
  | none => true
  | some q => decide (q = 0)

/-- calculateModelPercentage from src/index.js: 0 when the baseline time,
distance or elapsed time is missing or zero, otherwise the ratio of the
average speeds times 100. -/
def calculateModelPercentage (baseModelTime distance userTime : Option ℚ) : ℚ :=
  if jsFalsy baseModelTime || jsFalsy distance || jsFalsy userTime then 0
  else
    let modelSpeed := 2000 / baseModelTime.getD 0
    let userSpeed := distance.getD 0 / userTime.getD 0
    userSpeed / modelSpeed * 100

/-! ## Data model: sessions, results, conversation state -/

/-- A stored Result record, as pushed by saveResult in src/index.js.
modelPercentage is stored as the toFixed(2) string the source produces
(the source stores the string returned by toFixed).  The chatId and
timestamp fields only feed file names and logs and are omitted. -/
structure Result where
  name : String
  distance : ℚ
  boatClass : String
  ageCategory : String
  time : String
  modelTime : ℚ
  modelPercentage : String
  modelType : String
deriving DecidableEq

/-- A user Session: subject label, start timestamp, the append-only
audit log of action kinds, and the list of Result records.  Action
records are modelled by their action-kind string (the timestamp and
detail payload do not influence any claim). -/
structure Session where
  username : String
  startTime : String
  actions : List String
  results : List Result
deriving DecidableEq

/-- The conversation states of src/index.js (STATES). -/
inductive ConvState
  | IDLE
  | WAITING_MODEL_TYPE
  | WAITING_MODE
  | WAITING_NAME
  | WAITING_AGE
  | WAITING_DISTANCE
  | WAITING_BOAT
  | WAITING_TIME
  | WAITING_NEXT_ACTION
  | EDITING_LAST_TIME
deriving DecidableEq

/-- The per-user conversation state object created by initUserState:
current state plus the scratch fields, null modelled as none. -/
structure UserState where
  state : ConvState
  modelType : Option String
  mode : Option String
  name : Option String
  ageCategory : Option String
  distance : Option ℚ
  boatClass : Option String
  time : Option ℚ
deriving DecidableEq

/-- initUserState from src/index.js: state WAITING_MODEL_TYPE, every
scratch field null. -/
def initUserState : UserState :=
  { state := ConvState.WAITING_MODEL_TYPE, modelType := none, mode := none,
    name := none, ageCategory := none, distance := none, boatClass := none,
    time := none }

/-- A reference table variant: (age category, boat class) to the optional
baseline time for the 2000 m reference distance.  The table files
(modelTableWORLD.js, modelTableRUSSIA.js) are not part of the embedded
sources, so tables are parameters of every definition that reads them;
no claim depends on particular table entries. -/
def Table : Type := String → String → Option ℚ

/-- Reading modelTable[age]?.[boat] when age and boat come from nullable
scratch fields (JS indexing with undefined yields undefined). -/
def lookupTable (t : Table) (age boat : Option String) : Option ℚ :=
  match age, boat with
  | some a, some b => t a b
  | _, _ => none

/-! ## Message texts (languages.ru in src/index.js) -/

def worldModelStr : String := "Мировая модель"
def russiaModelStr : String := "Российская модель (Н.Н.)"
def singleTimeStr : String := "Ввести одно время"
def createFileStr : String := "Создать файл с результатами"
def selectModelMsg : String := "Выберите тип модели:"
def selectActionMsg : String := "Выберите действие:"
def enterTimePromptMsg : String :=
  "Введите время в формате СС.сс или ММ:СС.сс (например, 45.55 или 7:45.55)"
def invalidTimeMsg : String :=
  "Пожалуйста, введите время в формате СС.сс или ММ:СС.сс (например, 45.55 или 7:45.55). Также можно использовать формат ММ.СС.сс (например, 7.45.55)."
def modelErrorMsg : String :=
  "Ошибка при расчете модели. Пожалуйста, попробуйте снова."
def timeUpdatedMsg : String := "Время успешно обновлено"
def noResultsMsg : String := "Нет результатов для редактирования"
def notSavedMsg : String :=
  "Результат показан, но не сохранен из-за технической ошибки. Попробуйте еще раз."

/-- The timeResult template of languages.ru with the time and percentage
substituted, as the WAITING_TIME handler builds it via replace. -/
def timeResultMsg (timeText percentage : String) : String :=
  "ваше время: " ++ timeText ++ "\nваша модель: " ++ percentage ++ "%"

/-! ## Vocabulary lists and first-match selection -/

/-- worldAgeCategories from src/index.js. -/
def worldAgeCategories : List String :=
  ["Юноши до 19", "Девушки до 19", "Юниоры до 23", "Юниорки до 23",
   "Мужчина", "Женщины"]

/-- russiaAgeCategories from src/index.js. -/
def russiaAgeCategories : List String :=
  ["Юноши до 15", "Девушки до 15", "Юноши до 17", "Девушки до 17",
   "Юноши до 19", "Девушки до 19", "Юниоры до 23", "Юниорки до 23",
   "Мужчина", "Женщины"]

/-- boatClasses from src/index.js. -/
def boatClasses : List String :=
  ["1х", "1х л/в", "2-", "2- л/в", "2х", "2х л/в", "4-", "4х", "4х л/в",
   "4+", "8+"]

/-- Is pat a prefix of l (character lists)? -/
def startsWithL : List Char → List Char → Bool
  | _, [] => true
  | [], _ :: _ => false
  | c :: cs, p :: ps => decide (c = p) && startsWithL cs ps

/-- Is pat a contiguous sublist of l? -/
def hasSub : List Char → List Char → Bool
  | l, pat =>
    startsWithL l pat ||
      match l with
      | [] => false
      | _ :: cs => hasSub cs pat

/-- JS String.prototype.includes. -/
def strIncludes (s pat : String) : Bool := hasSub s.toList pat.toList

/-- The first-match selection rule used by the WAITING_AGE,
WAITING_DISTANCE and WAITING_BOAT cases of src/index.js: the first
vocabulary entry that equals the input or is contained in the input wins.
getMessage maps a boat class or age category to itself (these are not
keys of the language table), so the getMessage disjunct of the source
coincides with the equality disjunct. -/
def vocabFirstMatch (vocab : List String) (input : String) : Option String :=
  vocab.find? (fun v => v == input || strIncludes input v)

/-! ## The cancel handler (handleCancel, src/index.js lines 871 to 896) -/

/-- handleCancel: with no conversation state nothing happens; in
WAITING_NEXT_ACTION only the state field moves to WAITING_TIME; in every
other state the conversation is reinitialised via initUserState.  The
sessions map is never read or written by handleCancel, so the session
component passes through unchanged.  The returned list holds the texts
sent to the user. -/
def handleCancel (u : Option UserState) (sess : Option Session) :
    Option UserState × Option Session × List String :=
  match u with
  | none => (none, sess, [])
  | some st =>
    if st.state = ConvState.WAITING_NEXT_ACTION then
      (some { st with state := ConvState.WAITING_TIME }, sess, [enterTimePromptMsg])
    else
      (some initUserState, sess, [selectModelMsg])

/-! ## The WAITING_TIME handler (src/index.js lines 1190 to 1362) -/

/-- logUserAction: append an action record if a session exists. -/
def appendAction (sess : Option Session) (a : String) : Option Session :=
  sess.map (fun s => { s with actions := s.actions ++ [a] })

/-- saveResult without its file I/O: push the new Result, creating a
fallback session first when none exists (the synthesized subject label of
the source is collapsed to a constant since no claim reads it). -/
def saveResultTo (sess : Option Session) (r : Result) : Option Session :=
  match sess with
  | some s => some { s with results := s.results ++ [r] }
  | none => some { username := "User", startTime := "", actions := [], results := [r] }

/-- The WAITING_TIME case of the message handler.  The outcome of the
getModelTime call (whose table module is external to the embedded
sources and which is the only part of the try block that can throw
during the model computation) is a parameter modelComp; saveThrows
selects the saveError branch of the source (reachable only if the
result push itself fails, in which case the session is unchanged).
Returns the new conversation state, the new session and the texts sent. -/
def handleWaitingTime (text : String) (u : UserState) (sess : Option Session)
    (world russia : Table) (modelComp : Except String ℚ) (saveThrows : Bool) :
    UserState × Option Session × List String :=
  let totalSeconds := parseTimeToSeconds text
  if totalSeconds > 0 then
    let sess1 := appendAction sess ("enter_time")
    match modelComp with
    | Except.error _ => (u, appendAction sess1 ("error"), [modelErrorMsg])
    | Except.ok modelTime =>
      let baseModelTime :=
        lookupTable (if u.modelType = some worldModelStr then world else russia)
          u.ageCategory u.boatClass
      let percentage :=
        toFixed2 (calculateModelPercentage baseModelTime u.distance (some totalSeconds))
      let sess2 := appendAction sess1 ("calculate_model")
      let response := timeResultMsg text percentage
      if u.mode = some createFileStr then
        if saveThrows then
          (initUserState, sess2, [response, notSavedMsg, selectModelMsg])
        else
          let newResult : Result :=
            { name := u.name.getD "", distance := u.distance.getD 0,
              boatClass := u.boatClass.getD "", ageCategory := u.ageCategory.getD "",
              time := formatTime totalSeconds, modelTime := modelTime,
              modelPercentage := percentage, modelType := u.modelType.getD "" }
          ({ u with state := ConvState.WAITING_NEXT_ACTION },
            saveResultTo sess2 newResult, [response, selectActionMsg])
      else
        (initUserState, sess2, [response, selectModelMsg])
  else (u, sess, [invalidTimeMsg])

/-! ## The EDITING_LAST_TIME handler (src/index.js lines 1446 to 1484) -/

/-- The EDITING_LAST_TIME case: with a session holding at least one
Result and an input parsing to a positive number of seconds, the last
Result gets a new display time and a percentage recomputed from its own
stored modelType, ageCategory, boatClass and distance, and the state
returns to WAITING_NEXT_ACTION; otherwise nothing changes. -/
def handleEditLastTime (text : String) (u : UserState) (sess : Option Session)
    (world russia : Table) : UserState × Option Session × List String :=
  match sess with
  | some s =>
    match s.results.getLast? with
    | some lastResult =>
      let newTimeSeconds := parseTimeToSeconds text
      if newTimeSeconds > 0 then
        let modelTable := if lastResult.modelType = worldModelStr then world else russia
        let baseModelTime := modelTable lastResult.ageCategory lastResult.boatClass
        let newPercentage :=
          if jsFalsy baseModelTime then "0.00"
          else
            toFixed2 (calculateModelPercentage baseModelTime
              (some lastResult.distance) (some newTimeSeconds))
        let updated :=
          { lastResult with
            time := formatTime newTimeSeconds,
            modelPercentage := newPercentage }
        ({ u with state := ConvState.WAITING_NEXT_ACTION },
          some { s with results := s.results.dropLast ++ [updated] },
          [timeUpdatedMsg, selectActionMsg])
      else (u, sess, [invalidTimeMsg])
    | none => (u, sess, [noResultsMsg])
  | none => (u, sess, [noResultsMsg])

/-! ## The report exporter (createExcelFile, src/bot/excel.js; the copy in
src/index.js lines 412 to 575 has the same grouping, row and statistics
logic, with an additional cache wrapper around it) -/

/-- One cell of the generated worksheet: either a text or a number, as
ExcelJS rows mix both. -/
inductive Cell
  | str (s : String)
  | num (q : ℚ)
deriving DecidableEq

/-- One entry of groupedResults: the grouping object keeps the name,
distance, boatClass, ageCategory and modelType of the first Result seen
for that name and accumulates every time string. -/
structure RowGroup where
  name : String
  distance : ℚ
  boatClass : String
  ageCategory : String
  modelType : String
  times : List String
deriving DecidableEq

/-- One step of the grouping forEach: push the time onto an existing
group of the same name, or append a new group built from this Result. -/
def addResult (groups : List RowGroup) (r : Result) : List RowGroup :=
  if groups.any (fun g => g.name == r.name) then
    groups.map (fun g =>
      if g.name == r.name then { g with times := g.times ++ [r.time] } else g)
  else
    groups ++ [{ name := r.name, distance := r.distance, boatClass := r.boatClass,
                 ageCategory := r.ageCategory, modelType := r.modelType,
                 times := [r.time] }]

/-- groupedResults: fold the grouping step over the session results;
JS object keys preserve insertion order, modelled by the list order. -/
def groupResults (results : List Result) : List RowGroup :=
  results.foldl addResult []

/-- The session maximum of attempts per subject (Math.max over the group
sizes; the exporter only runs on a non-empty session, so the default 0 of
the empty fold is never the result). -/
def maxResultsOf (groups : List RowGroup) : ℕ :=
  (groups.map (fun g => g.times.length)).foldr max 0

/-- The data row emitted for one group: name, distance, class, age, then
for each attempt slot up to the session maximum either the recorded time
with its recomputed percentage or a blank pair, then the average time and
the average recomputed percentage. -/
def rowCells (world russia : Table) (mx : ℕ) (g : RowGroup) : List Cell :=
  let modelTable := if g.modelType == worldModelStr then world else russia
  let baseModelTime := modelTable g.ageCategory g.boatClass
  let attemptCells := (List.range mx).flatMap (fun i =>
    if i < g.times.length then
      let t := g.times.getD i ""
      let userTime := parseTimeToSeconds t
      let modelPercent :=
        if jsFalsy baseModelTime then ""
        else
          toFixed2 (calculateModelPercentage baseModelTime (some g.distance)
            (some userTime))
      [Cell.str t, Cell.str (modelPercent ++ "%")]
    else [Cell.str "", Cell.str ""])
  let times := g.times.map parseTimeToSeconds
  let models := times.map (fun userTime =>
    if jsFalsy baseModelTime then 0
    else calculateModelPercentage baseModelTime (some g.distance) (some userTime))
  let avgTime := formatTime (avg times)
  let avgModel := toFixed2 (avg models)
  [Cell.str g.name, Cell.num g.distance, Cell.str g.boatClass,
    Cell.str g.ageCategory] ++ attemptCells ++
    [Cell.str avgTime, Cell.str (avgModel ++ "%")]

/-- Collect a list of optional values; none as soon as one is none,
modelling NaN propagation through the team average. -/
def allSome : List (Option ℚ) → Option (List ℚ)
  | [] => some []
  | none :: _ => none
  | some q :: rest => (allSome rest).map (fun l => q :: l)

/-- The team-average cell of the statistics worksheet: parseFloat of each
stored modelPercentage field, averaged and formatted; if any stored field
fails to parse, NaN propagates to the printed average. -/
def teamAvgCell (results : List Result) : String :=
  match allSome (results.map (fun r => jsParseFloat r.modelPercentage)) with
  | some qs => toFixed2 (avg qs) ++ "%"
  | none => "NaN%"

/-- The generated workbook content: the header row and data rows of the
main worksheet and the rows of the statistics worksheet. -/
structure ExcelOutput where
  mainHeaders : List String
  mainRows : List (List Cell)
  statsRows : List (List Cell)
deriving DecidableEq

/-- The worksheet content createExcelFile produces for a non-empty
session. -/
def exporterCore (s : Session) (world russia : Table) : ExcelOutput :=
  let groups := groupResults s.results
  let mx := maxResultsOf groups
  let headers :=
    ["Имя", "Дистанция", "Класс", "Возраст"] ++
      (List.range mx).flatMap (fun i =>
        ["Время " ++ natDecStr (i + 1), "Модель " ++ natDecStr (i + 1)]) ++
      ["Среднее время", "Средняя модель"]
  { mainHeaders := headers,
    mainRows := groups.map (rowCells world russia mx),
    statsRows :=
      [[Cell.str "Общая статистика"],
       [Cell.str "Количество спортсменов", Cell.num groups.length],
       [Cell.str "Общее количество результатов", Cell.num s.results.length],
       [Cell.str "Средний процент от модели по команде",
        Cell.str (teamAvgCell s.results)]] }

/-- createExcelFile: null (none) when there is no session or no results,
otherwise the workbook content. -/
def createExcelFile (sess : Option Session) (world russia : Table) :
    Option ExcelOutput :=
  match sess with
  | none => none
  | some s => if s.results.isEmpty then none else some (exporterCore s world russia)

/-! ## Helper lemmas: evaluation of the codec primitives -/

theorem formatTime_shape (s : ℚ) :
    formatTime s = intDecStr ⌊s / 60⌋ ++ ":" ++ padStart5 (toFixed2 (jsMod s 60)) := rfl

theorem toFixed2_of_floor (q : ℚ) (n : ℤ) (hn : ⌊q * 100 + 1 / 2⌋ = n) (h0 : 0 ≤ n) :
    toFixed2 q = natDecStr (n.toNat / 100) ++ "." ++ pad2str (n.toNat % 100) := by
  rw [toFixed2, hn, if_neg (by omega)]

theorem pow10_pos (k : ℕ) : 0 < pow10 k := by
  induction k with
  | zero => norm_num [pow10]
  | succ k ih => rw [pow10]; positivity

theorem decCombine_one_nonneg (a b : List Char) : 0 ≤ decCombine 1 a b := by
  rw [decCombine]
  have := pow10_pos b.length
  positivity

theorem round2_nonneg (q : ℚ) (h : 0 ≤ q) : 0 ≤ round2 q := by
  rw [round2]
  have h1 : (0 : ℤ) ≤ ⌊q * 100 + 1 / 2⌋ := by
    apply Int.floor_nonneg.mpr
    positivity
  positivity

theorem abs_round2_sub (q : ℚ) : |round2 q - q| ≤ 1 / 200 := by
  rw [round2]
  have h1 : (⌊q * 100 + 1 / 2⌋ : ℚ) ≤ q * 100 + 1 / 2 := Int.floor_le _
  have h2 : q * 100 + 1 / 2 - 1 < (⌊q * 100 + 1 / 2⌋ : ℚ) := Int.sub_one_lt_floor _
  rw [abs_le]
  constructor <;> [linarith; linarith]

/-! ## Helper lemmas: digit characters -/

theorem digitChar_toNat (d : ℕ) (h : d < 10) : (Nat.digitChar d).toNat = 48 + d := by
  interval_cases d <;> rfl

theorem isDigitB_digitChar (d : ℕ) (h : d < 10) : isDigitB (Nat.digitChar d) = true := by
  interval_cases d <;> rfl

theorem isDigitB_code (c : Char) (h : isDigitB c = true) :
    48 ≤ c.toNat ∧ c.toNat ≤ 57 := by
  rw [isDigitB, Bool.and_eq_true, decide_eq_true_iff, decide_eq_true_iff] at h
  exact h

theorem digit_not_ws (c : Char) (h : isDigitB c = true) : isWs c = false := by
  have := isDigitB_code c h
  rw [isWs]
  simp only [Bool.or_eq_false_iff, decide_eq_false_iff_not]
  omega

theorem digitsToNat_cons (c : Char) (l : List Char) :
    digitsToNat (c :: l) = List.foldl (fun a x => a * 10 + (x.toNat - 48)) (c.toNat - 48) l := by
  rw [digitsToNat]
  simp [List.foldl_cons]

theorem digitsToNat_snoc (l : List Char) (c : Char) :
    digitsToNat (l ++ [c]) = digitsToNat l * 10 + (c.toNat - 48) := by
  rw [digitsToNat, digitsToNat, List.foldl_append]
  rfl

theorem digitsToNat_cons_zero (l : List Char) :
    digitsToNat ('0' :: l) = digitsToNat l := by
  rw [digitsToNat, digitsToNat]
  rfl

/-! ## Helper lemmas: decimal printing round-trips through parsing -/

theorem natDecCharsAux_spec (fuel : ℕ) : ∀ n : ℕ, 0 < fuel → n < 10 ^ fuel →
    natDecCharsAux fuel n ≠ [] ∧
    (∀ c ∈ natDecCharsAux fuel n, isDigitB c = true) ∧
    digitsToNat (natDecCharsAux fuel n) = n := by
  induction fuel with
  | zero => intro n h; omega
  | succ f ih =>
    intro n _ hn
    rw [natDecCharsAux]
    by_cases h10 : n < 10
    · rw [if_pos h10]
      refine ⟨by simp, ?_, ?_⟩
      · intro c hc
        rw [List.mem_singleton] at hc
        rw [hc]
        exact isDigitB_digitChar n h10
      · rw [digitsToNat_cons, digitChar_toNat n h10]
        simp only [List.foldl_nil]
        omega
    · rw [if_neg h10]
      have hf : 0 < f := by
        rcases Nat.eq_zero_or_pos f with h | h
        · subst h; simp at hn; omega
        · exact h
      have hn' : n / 10 < 10 ^ f := by
        rw [Nat.div_lt_iff_lt_mul (by norm_num)]
        calc n < 10 ^ (f + 1) := hn
        _ = 10 ^ f * 10 := by rw [pow_succ]
      obtain ⟨hne, hdig, hval⟩ := ih (n / 10) hf hn'
      refine ⟨by simp, ?_, ?_⟩
      · intro c hc
        rw [List.mem_append] at hc
        rcases hc with hc | hc
        · exact hdig c hc
        · rw [List.mem_singleton] at hc
          rw [hc]
          exact isDigitB_digitChar _ (Nat.mod_lt _ (by norm_num))
      · rw [digitsToNat_snoc, hval, digitChar_toNat _ (Nat.mod_lt _ (by norm_num))]
        omega

theorem natDecChars_spec (n : ℕ) :
    natDecChars n ≠ [] ∧ (∀ c ∈ natDecChars n, isDigitB c = true) ∧
    digitsToNat (natDecChars n) = n := by
  apply natDecCharsAux_spec (n + 1) n (Nat.succ_pos n)
  calc n < 10 ^ n := Nat.lt_pow_self (by norm_num) n
  _ ≤ 10 ^ (n + 1) := Nat.pow_le_pow_right (by norm_num) (Nat.le_succ n)

theorem natDecChars_lt10 (n : ℕ) (h : n < 10) : natDecChars n = [Nat.digitChar n] := by
  rw [natDecChars, natDecCharsAux, if_pos h]

theorem natDecChars_lt100 (n : ℕ) (h1 : 10 ≤ n) (h2 : n < 100) :
    natDecChars n = [Nat.digitChar (n / 10), Nat.digitChar (n % 10)] := by
  obtain ⟨k, rfl⟩ : ∃ k, n = k + 1 := ⟨n - 1, by omega⟩
  rw [natDecChars, natDecCharsAux, if_neg (by omega), natDecCharsAux,
    if_pos (by omega)]
  rfl

/-! ## Helper lemmas: splitting and scanning -/

theorem splitOnCode_not_mem (code : ℕ) (l : List Char)
    (h : ∀ c ∈ l, c.toNat ≠ code) : splitOnCode code l = [l] := by
  induction l with
  | nil => rfl
  | cons c cs ih =>
    rw [splitOnCode]
    rw [ih (fun x hx => h x (List.mem_cons_of_mem c hx))]
    rw [if_neg (h c (List.mem_cons_self c cs))]

theorem splitOnCode_append (code : ℕ) (l1 : List Char) (c : Char) (l2 : List Char)
    (h1 : ∀ x ∈ l1, x.toNat ≠ code) (hc : c.toNat = code) :
    splitOnCode code (l1 ++ c :: l2) = l1 :: splitOnCode code l2 := by
  induction l1 with
  | nil =>
    simp only [List.nil_append]
    rw [splitOnCode, if_pos hc]
  | cons a as ih =>
    rw [List.cons_append, splitOnCode,
      ih (fun x hx => h1 x (List.mem_cons_of_mem a hx)),
      if_neg (h1 a (List.mem_cons_self a as))]

theorem splitDigits_all (l : List Char) (h : ∀ c ∈ l, isDigitB c = true) :
    splitDigits l = (l, []) := by
  induction l with
  | nil => rfl
  | cons c cs ih =>
    rw [splitDigits, if_pos (h c (List.mem_cons_self c cs)),
      ih (fun x hx => h x (List.mem_cons_of_mem c hx))]

theorem splitDigits_append (l1 : List Char) (c : Char) (l2 : List Char)
    (h1 : ∀ x ∈ l1, isDigitB x = true) (hc : isDigitB c = false) :
    splitDigits (l1 ++ c :: l2) = (l1, c :: l2) := by
  induction l1 with
  | nil =>
    simp only [List.nil_append]
    rw [splitDigits, hc]
    simp
  | cons a as ih =>
    rw [List.cons_append, splitDigits,
      if_pos (h1 a (List.mem_cons_self a as)),
      ih (fun x hx => h1 x (List.mem_cons_of_mem a hx))]

theorem dropWhile_head_false {p : Char → Bool} : ∀ l : List Char,
    (∀ c ∈ l, p c = false) → l.dropWhile p = l := by
  intro l h
  cases l with
  | nil => rfl
  | cons c cs =>
    rw [List.dropWhile_cons, h c (List.mem_cons_self c cs)]
    simp

theorem trimWs_no_ws (l : List Char) (h : ∀ c ∈ l, isWs c = false) :
    trimWs l = l := by
  rw [trimWs, dropWhile_head_false l h,
    dropWhile_head_false l.reverse (fun c hc => h c (List.mem_reverse.mp hc)),
    List.reverse_reverse]

theorem signSplit_no_sign (l : List Char)
    (h : ∀ c ∈ l.take 1, c.toNat ≠ 43 ∧ c.toNat ≠ 45) : signSplit l = (1, l) := by
  cases l with
  | nil => rfl
  | cons c cs =>
    have hc := h c (by simp)
    rw [signSplit, if_neg hc.1, if_neg hc.2]

theorem digit_no_sign (c : Char) (h : isDigitB c = true) :
    c.toNat ≠ 43 ∧ c.toNat ≠ 45 := by
  have := isDigitB_code c h
  omega

theorem digit_not_colon (c : Char) (h : isDigitB c = true) : c.toNat ≠ 58 := by
  have := isDigitB_code c h
  omega

theorem digit_not_dot (c : Char) (h : isDigitB c = true) : c.toNat ≠ 46 := by
  have := isDigitB_code c h
  omega

theorem dotChar_code : dotChar.toNat = 46 := rfl

theorem isDigitB_dotChar : isDigitB dotChar = false := rfl

theorem isWs_dotChar : isWs dotChar = false := rfl

/-! ## Helper lemmas: the JS converters on digit-shaped inputs -/

theorem string_mk_toList (l : List Char) : (String.mk l).toList = l := rfl

theorem decValue_digits (l : List Char) (hne : l ≠ [])
    (h : ∀ c ∈ l, isDigitB c = true) : decValue l = some (l, []) := by
  rw [decValue, splitDigits_all l h]
  simp only []
  rw [if_neg (by simp [hne])]

theorem decValue_digits_dot (a b : List Char) (hne : a ≠ [])
    (ha : ∀ c ∈ a, isDigitB c = true) (hb : ∀ c ∈ b, isDigitB c = true) :
    decValue (a ++ dotChar :: b) = some (a, b) := by
  rw [decValue, splitDigits_append a dotChar b ha isDigitB_dotChar]
  simp only []
  rw [if_pos dotChar_code, splitDigits_all b hb]
  simp [hne]

theorem jsNumber_digits (l : List Char) (hne : l ≠ [])
    (h : ∀ c ∈ l, isDigitB c = true) :
    jsNumber (String.mk l) = some (decCombine 1 l []) := by
  rw [jsNumber, string_mk_toList, trimWs_no_ws l (fun c hc => digit_not_ws c (h c hc))]
  rw [if_neg (by simp [hne])]
  rw [signSplit_no_sign l (fun c hc => digit_no_sign c (h c (List.mem_of_mem_take hc)))]
  simp only [decValue_digits l hne h, Option.map_some']

theorem jsNumber_digits_dot (a b : List Char) (hane : a ≠ [])
    (ha : ∀ c ∈ a, isDigitB c = true) (hb : ∀ c ∈ b, isDigitB c = true) :
    jsNumber (String.mk (a ++ dotChar :: b)) = some (decCombine 1 a b) := by
  have hws : ∀ c ∈ a ++ dotChar :: b, isWs c = false := by
    intro c hc
    rw [List.mem_append, List.mem_cons] at hc
    rcases hc with hc | hc | hc
    · exact digit_not_ws c (ha c hc)
    · rw [hc]; exact isWs_dotChar
    · exact digit_not_ws c (hb c hc)
  rw [jsNumber, string_mk_toList, trimWs_no_ws _ hws]
  rw [if_neg (by simp [hane])]
  have hsign : signSplit (a ++ dotChar :: b) = (1, a ++ dotChar :: b) := by
    apply signSplit_no_sign
    intro c hc
    cases a with
    | nil => exact absurd rfl hane
    | cons x xs =>
      simp only [List.cons_append, List.take_succ_cons, List.take_zero,
        List.mem_singleton] at hc
      rw [hc]
      exact digit_no_sign x (ha x (List.mem_cons_self x xs))
  rw [hsign]
  simp only [decValue_digits_dot a b hane ha hb, Option.map_some']

theorem jsParseFloat_digits (l : List Char) (hne : l ≠ [])
    (h : ∀ c ∈ l, isDigitB c = true) :
    jsParseFloat (String.mk l) = some (decCombine 1 l []) := by
  rw [jsParseFloat, string_mk_toList,
    dropWhile_head_false l (fun c hc => digit_not_ws c (h c hc))]
  rw [signSplit_no_sign l (fun c hc => digit_no_sign c (h c (List.mem_of_mem_take hc)))]
  rw [splitDigits_all l h]
  simp only []
  rw [if_neg (by simp [hne])]

theorem jsParseFloat_digits_dot (a b : List Char) (hane : a ≠ [])
    (ha : ∀ c ∈ a, isDigitB c = true) (hb : ∀ c ∈ b, isDigitB c = true) :
    jsParseFloat (String.mk (a ++ dotChar :: b)) = some (decCombine 1 a b) := by
  have hws : ∀ c ∈ a ++ dotChar :: b, isWs c = false := by
    intro c hc
    rw [List.mem_append, List.mem_cons] at hc
    rcases hc with hc | hc | hc
    · exact digit_not_ws c (ha c hc)
    · rw [hc]; exact isWs_dotChar
    · exact digit_not_ws c (hb c hc)
  rw [jsParseFloat, string_mk_toList, dropWhile_head_false _ hws]
  have hsign : signSplit (a ++ dotChar :: b) = (1, a ++ dotChar :: b) := by
    apply signSplit_no_sign
    intro c hc
    cases a with
    | nil => exact absurd rfl hane
    | cons x xs =>
      simp only [List.cons_append, List.take_succ_cons, List.take_zero,
        List.mem_singleton] at hc
      rw [hc]
      exact digit_no_sign x (ha x (List.mem_cons_self x xs))
  rw [hsign, splitDigits_append a dotChar b ha isDigitB_dotChar]
  simp only []
  rw [if_pos dotChar_code, splitDigits_all b hb]
  simp only []
  rw [if_neg (by simp [hane])]

theorem jsParseInt_digits (l : List Char) (hne : l ≠ [])
    (h : ∀ c ∈ l, isDigitB c = true) :
    jsParseInt (String.mk l) = some (decCombine 1 l []) := by
  rw [jsParseInt, string_mk_toList,
    dropWhile_head_false l (fun c hc => digit_not_ws c (h c hc))]
  rw [signSplit_no_sign l (fun c hc => digit_no_sign c (h c (List.mem_of_mem_take hc)))]
  rw [splitDigits_all l h]
  simp only []
  rw [if_neg (by simp [hne])]

/-! ## Claim theorems -/

/-- C1: calculateModelPercentage(baseline, distance, elapsed) returns
(distance / elapsed) / (2000 / baseline) * 100 — the ratio of average
speeds — whenever all three arguments are defined and non-zero, and
returns 0 when baseline, distance or elapsed time is missing (undefined)
or zero; in particular percentage(390, 2000, 390) = 100,
percentage(390, 1000, 195) = 100 and percentage(0, 2000, 100) = 0. -/
theorem c1_percentage_spec :
    (∀ b d t : ℚ, b ≠ 0 → d ≠ 0 → t ≠ 0 →
      calculateModelPercentage (some b) (some d) (some t) =
        (d / t) / (2000 / b) * 100) ∧
    (∀ d t, calculateModelPercentage none d t = 0) ∧
    (∀ b t, calculateModelPercentage b none t = 0) ∧
    (∀ b d, calculateModelPercentage b d none = 0) ∧
    (∀ d t, calculateModelPercentage (some 0) d t = 0) ∧
    (∀ b t, calculateModelPercentage b (some 0) t = 0) ∧
    (∀ b d, calculateModelPercentage b d (some 0) = 0) ∧
    calculateModelPercentage (some 390) (some 2000) (some 390) = 100 ∧
    calculateModelPercentage (some 390) (some 1000) (some 195) = 100 ∧
    calculateModelPercentage (some 0) (some 2000) (some 100) = 0 := by
  refine ⟨?_, ?_, ?_, ?_, ?_, ?_, ?_, ?_, ?_, ?_⟩
  · intro b d t hb hd ht
    simp [calculateModelPercentage, jsFalsy, hb, hd, ht]
  · intro d t; simp [calculateModelPercentage, jsFalsy]
  · intro b t; simp [calculateModelPercentage, jsFalsy]
  · intro b d; simp [calculateModelPercentage, jsFalsy]
  · intro d t; simp [calculateModelPercentage, jsFalsy]
  · intro b t; simp [calculateModelPercentage, jsFalsy]
  · intro b d; simp [calculateModelPercentage, jsFalsy]
  · rw [calculateModelPercentage]; norm_num [jsFalsy]
  · rw [calculateModelPercentage]; norm_num [jsFalsy]
  · rw [calculateModelPercentage]; norm_num [jsFalsy]

/-- Witness for C1: the speed-ratio formula applied at the concrete
baseline 390, distance 2000, elapsed 390. -/
theorem c1_percentage_spec_witness :
    calculateModelPercentage (some 390) (some 2000) (some 390) =
      (2000 / 390) / (2000 / 390) * 100 :=
  c1_percentage_spec.1 390 2000 390 (by norm_num) (by norm_num) (by norm_num)

/-- C6: processing the cancel input ("Отмена") while the conversation
state is WAITING_NEXT_ACTION moves only the state to WAITING_TIME; in
every other state it fully resets the conversation to WAITING_MODEL_TYPE
with all scratch fields cleared to null; in neither case is the Session
(its results and actions) deleted or modified. -/
theorem c6_cancel_spec (st : UserState) (sess : Option Session) :
    (st.state = ConvState.WAITING_NEXT_ACTION →
      handleCancel (some st) sess =
        (some { st with state := ConvState.WAITING_TIME }, sess, [enterTimePromptMsg])) ∧
    (st.state ≠ ConvState.WAITING_NEXT_ACTION →
      handleCancel (some st) sess = (some initUserState, sess, [selectModelMsg]) ∧
        initUserState.state = ConvState.WAITING_MODEL_TYPE ∧
        initUserState.modelType = none ∧ initUserState.mode = none ∧
        initUserState.name = none ∧ initUserState.ageCategory = none ∧
        initUserState.distance = none ∧ initUserState.boatClass = none ∧
        initUserState.time = none) ∧
    (handleCancel (some st) sess).2.1 = sess := by
  refine ⟨?_, ?_, ?_⟩
  · intro h
    rw [handleCancel, if_pos h]
  · intro h
    rw [handleCancel, if_neg h]
    exact ⟨rfl, rfl, rfl, rfl, rfl, rfl, rfl, rfl, rfl⟩
  · rw [handleCancel]
    split <;> rfl

/-- Witness for C6: a concrete cancel in WAITING_NEXT_ACTION and a
concrete cancel in WAITING_TIME, with the session passed through. -/
theorem c6_cancel_spec_witness :
    handleCancel (some { initUserState with state := ConvState.WAITING_NEXT_ACTION })
        (some { username := "u", startTime := "", actions := ["start_bot"], results := [] }) =
      (some { { initUserState with state := ConvState.WAITING_NEXT_ACTION } with
                state := ConvState.WAITING_TIME },
        some { username := "u", startTime := "", actions := ["start_bot"], results := [] },
        [enterTimePromptMsg]) ∧
    handleCancel (some { initUserState with state := ConvState.WAITING_TIME }) none =
      (some initUserState, none, [selectModelMsg]) :=
  ⟨(c6_cancel_spec _ _).1 rfl, ((c6_cancel_spec _ _).2.1 (by decide)).1⟩

/-- C7 is violated by the boat-class vocabulary: "1х" is both an entry of
boatClasses and a substring of the entry "1х л/в", and the first-match
rule applied to the exact input "1х л/в" selects "1х", so the entry
"1х л/в" is not selectable (same for "2-", "2х" and "4х" against their
lightweight variants). -/
theorem c7_boat_vocab_bug :
    ("1х" : String) ∈ boatClasses ∧ ("1х л/в" : String) ∈ boatClasses ∧
    ("1х" : String) ≠ "1х л/в" ∧ strIncludes ("1х л/в") ("1х") = true ∧
    vocabFirstMatch boatClasses ("1х л/в") = some ("1х") ∧
    vocabFirstMatch boatClasses ("2х л/в") = some ("2х") := by
  refine ⟨?_, ?_, ?_, ?_, ?_, ?_⟩ <;> decide

/-- C9: a successful edit-last-time (input parsing to a positive number
of seconds, session holding at least one Result) replaces only the last
Result display time and its percentage — recomputed from that Result
stored modelType, ageCategory, boatClass and distance — leaves every
earlier Result (and the rest of the session) unchanged, and returns the
conversation to WAITING_NEXT_ACTION. -/
theorem c9_edit_last_spec (text : String) (u : UserState) (world russia : Table)
    (s : Session) (rs : List Result) (last : Result)
    (hres : s.results = rs ++ [last]) (hpos : 0 < parseTimeToSeconds text) :
    ∃ updated : Result,
      handleEditLastTime text u (some s) world russia =
        ({ u with state := ConvState.WAITING_NEXT_ACTION },
          some { s with results := rs ++ [updated] },
          [timeUpdatedMsg, selectActionMsg]) ∧
      updated.time = formatTime (parseTimeToSeconds text) ∧
      updated.modelPercentage =
        (if jsFalsy ((if last.modelType = worldModelStr then world else russia)
            last.ageCategory last.boatClass) then "0.00"
         else
           toFixed2 (calculateModelPercentage
             ((if last.modelType = worldModelStr then world else russia)
               last.ageCategory last.boatClass)
             (some last.distance) (some (parseTimeToSeconds text)))) ∧
      updated.name = last.name ∧ updated.distance = last.distance ∧
      updated.boatClass = last.boatClass ∧ updated.ageCategory = last.ageCategory ∧
      updated.modelType = last.modelType ∧ updated.modelTime = last.modelTime := by
  refine ⟨{ last with
      time := formatTime (parseTimeToSeconds text),
      modelPercentage :=
        if jsFalsy ((if last.modelType = worldModelStr then world else russia)
            last.ageCategory last.boatClass) then "0.00"
        else
          toFixed2 (calculateModelPercentage
            ((if last.modelType = worldModelStr then world else russia)
              last.ageCategory last.boatClass)
            (some last.distance) (some (parseTimeToSeconds text))) },
    ?_, rfl, rfl, rfl, rfl, rfl, rfl, rfl, rfl⟩
  simp only [handleEditLastTime, hres, List.getLast?_concat, List.dropLast_concat]
  rw [if_pos hpos]

/-- Witness for C9: editing the only Result of a concrete session with
the input "45.55". -/
theorem c9_edit_last_spec_witness :
    ∃ updated : Result,
      handleEditLastTime ("45.55") initUserState
          (some { username := "u", startTime := "", actions := [],
                  results := [{ name := "A", distance := 2000, boatClass := "1х",
                                ageCategory := "Мужчина", time := "6:30.00",
                                modelTime := 0, modelPercentage := "100.00",
                                modelType := worldModelStr }] })
          (fun _ _ => none) (fun _ _ => none) =
        ({ initUserState with state := ConvState.WAITING_NEXT_ACTION },
          some { username := "u", startTime := "", actions := [],
                 results := [] ++ [updated] },
          [timeUpdatedMsg, selectActionMsg]) ∧
      updated.time = formatTime (parseTimeToSeconds ("45.55")) ∧
      updated.modelPercentage =
        (if jsFalsy (((if ({ name := "A", distance := 2000, boatClass := "1х",
                             ageCategory := "Мужчина", time := "6:30.00",
                             modelTime := 0, modelPercentage := "100.00",
                             modelType := worldModelStr } : Result).modelType = worldModelStr
                      then (fun _ _ => none) else (fun _ _ => none)) : Table)
            ("Мужчина") ("1х")) then "0.00"
         else
           toFixed2 (calculateModelPercentage
             (((if ({ name := "A", distance := 2000, boatClass := "1х",
                      ageCategory := "Мужчина", time := "6:30.00",
                      modelTime := 0, modelPercentage := "100.00",
                      modelType := worldModelStr } : Result).modelType = worldModelStr
               then (fun _ _ => none) else (fun _ _ => none)) : Table) ("Мужчина") ("1х"))
             (some 2000) (some (parseTimeToSeconds ("45.55"))))) ∧
      updated.name = "A" ∧ updated.distance = 2000 ∧
      updated.boatClass = "1х" ∧ updated.ageCategory = "Мужчина" ∧
      updated.modelType = worldModelStr ∧ updated.modelTime = 0 := by
  have hpos : 0 < parseTimeToSeconds ("45.55") := by
    rw [show parseTimeToSeconds ("45.55") = round2 (decCombine 1 ['4', '5'] ['5', '5']) from rfl]
    rw [round2, show decCombine 1 ['4', '5'] ['5', '5'] = 4555 / 100 by
      norm_num [decCombine, pow10, show digitsToNat (['4', '5']) = 45 from by decide,
        show digitsToNat (['5', '5']) = 55 from by decide]]
    norm_num
  exact c9_edit_last_spec ("45.55") initUserState (fun _ _ => none) (fun _ _ => none)
    _ [] _ rfl hpos

/-- Counterexample to C3: on input "-1:30.555" the parser returns
-29.445, which is negative and not rounded to 2 decimal places, so the
output is neither always non-negative nor always rounded. -/
theorem c3_parse_counterexample :
    parseTimeToSeconds ("-1:30.555") = -(29445 / 1000) ∧
    parseTimeToSeconds ("-1:30.555") < 0 ∧
    round2 (parseTimeToSeconds ("-1:30.555")) ≠ parseTimeToSeconds ("-1:30.555") := by
  have hval : parseTimeToSeconds ("-1:30.555") = -(29445 / 1000) := by
    rw [show parseTimeToSeconds ("-1:30.555") =
        decCombine (-1) ['1'] [] * 60 + decCombine 1 ['3', '0'] ['5', '5', '5'] from rfl]
    norm_num [decCombine, pow10,
      show digitsToNat (['1']) = 1 from by decide,
      show digitsToNat (['3', '0']) = 30 from by decide,
      show digitsToNat (['5', '5', '5']) = 555 from by decide,
      show digitsToNat ([]) = 0 from rfl]
  refine ⟨hval, by rw [hval]; norm_num, ?_⟩
  rw [hval, round2]
  rw [show (-(29445 / 1000 : ℚ) * 100 + 1 / 2) = -2944 by norm_num]
  norm_num

/-- C3 as amended: the disambiguation rule is as stated (colon means
minutes:seconds via Number, exactly three dot-separated groups mean
minutes via parseInt plus seconds.hundredths via parseFloat, anything
else is plain seconds via parseFloat), any unparseable component yields
the sentinel 0, and the four examples hold; but only the plain-seconds
branch rounds to 2 decimal places, and the output can be negative when a
component carries a minus sign. -/
theorem c3_parse_amended :
    parseTimeToSeconds ("45.55") = 4555 / 100 ∧
    parseTimeToSeconds ("7:45.55") = 46555 / 100 ∧
    parseTimeToSeconds ("7.45.55") = 46555 / 100 ∧
    parseTimeToSeconds ("not a time") = 0 ∧
    (∀ s : String, s.toList.any (fun c => decide (c.toNat = 58)) = false →
      (splitOnCode 46 s.toList).length ≠ 3 →
      jsParseFloat s = none → parseTimeToSeconds s = 0) ∧
    (∀ (s : String) (q : ℚ), s.toList.any (fun c => decide (c.toNat = 58)) = false →
      (splitOnCode 46 s.toList).length ≠ 3 →
      jsParseFloat s = some q → parseTimeToSeconds s = round2 q) ∧
    (∀ (s : String) (p1 p2 : List Char) (rest : List (List Char)),
      s.toList.any (fun c => decide (c.toNat = 58)) = true →
      splitOnCode 58 s.toList = p1 :: p2 :: rest →
      parseTimeToSeconds s =
        (match jsNumber (String.mk p1), jsNumber (String.mk p2) with
         | some m, some sec => m * 60 + sec
         | _, _ => 0)) ∧
    (∀ (s : String) (p0 p1 p2 : List Char),
      s.toList.any (fun c => decide (c.toNat = 58)) = false →
      splitOnCode 46 s.toList = [p0, p1, p2] →
      parseTimeToSeconds s =
        (match jsParseInt (String.mk p0),
            jsParseFloat (String.mk (p1 ++ dotChar :: p2)) with
         | some m, some sec => m * 60 + sec
         | _, _ => 0)) := by
  have hdig45 : digitsToNat (['4', '5']) = 45 := by decide
  have hdig55 : digitsToNat (['5', '5']) = 55 := by decide
  have hdig7 : digitsToNat (['7']) = 7 := by decide
  have hdig0 : digitsToNat ([]) = 0 := rfl
  refine ⟨?_, ?_, ?_, rfl, ?_, ?_, ?_, ?_⟩
  · rw [show parseTimeToSeconds ("45.55") = round2 (decCombine 1 ['4', '5'] ['5', '5']) from rfl]
    rw [show decCombine 1 ['4', '5'] ['5', '5'] = 4555 / 100 by
      norm_num [decCombine, pow10, hdig45, hdig55]]
    rw [round2, show ((4555 : ℚ) / 100 * 100 + 1 / 2) = 9111 / 2 by norm_num]
    norm_num
  · rw [show parseTimeToSeconds ("7:45.55") =
        decCombine 1 ['7'] [] * 60 + decCombine 1 ['4', '5'] ['5', '5'] from rfl]
    norm_num [decCombine, pow10, hdig45, hdig55, hdig7, hdig0]
  · rw [show parseTimeToSeconds ("7.45.55") =
        decCombine 1 ['7'] [] * 60 + decCombine 1 ['4', '5'] ['5', '5'] from rfl]
    norm_num [decCombine, pow10, hdig45, hdig55, hdig7, hdig0]
  · intro s h1 h2 h3
    rw [parseTimeToSeconds]
    simp only [h1, Bool.false_eq_true, if_false, if_neg h2, h3]
  · intro s q h1 h2 h3
    rw [parseTimeToSeconds]
    simp only [h1, Bool.false_eq_true, if_false, if_neg h2, h3]
  · intro s p1 p2 rest h1 hsplit
    rw [parseTimeToSeconds]
    simp only [h1, if_true, hsplit, List.map_cons]
    cases jsNumber (String.mk p1) <;> cases jsNumber (String.mk p2) <;> rfl
  · intro s p0 p1 p2 h1 hsplit
    rw [parseTimeToSeconds]
    simp only [h1, Bool.false_eq_true, if_false, hsplit, List.length_cons,
      List.length_nil]
    cases jsParseInt (String.mk p0) <;>
      cases jsParseFloat (String.mk (p1 ++ dotChar :: p2)) <;> rfl

/-- Witness for C3 as amended: the plain-seconds branch applied at the
concrete input "99" (no colon, not three groups, parseFloat succeeds). -/
theorem c3_parse_amended_witness :
    parseTimeToSeconds ("99") = round2 (decCombine 1 ['9', '9'] []) :=
  c3_parse_amended.2.2.2.2.2.1 ("99") (decCombine 1 ['9', '9'] [])
    (by decide) (by decide) rfl

/-- Evaluation helper: "45.55" parses to a positive number of seconds. -/
theorem parse4555_pos : 0 < parseTimeToSeconds ("45.55") := by
  rw [show parseTimeToSeconds ("45.55") = round2 (decCombine 1 ['4', '5'] ['5', '5']) from rfl]
  rw [show decCombine 1 ['4', '5'] ['5', '5'] = 4555 / 100 by
    norm_num [decCombine, pow10, show digitsToNat (['4', '5']) = 45 from by decide,
      show digitsToNat (['5', '5']) = 55 from by decide]]
  rw [round2, show ((4555 : ℚ) / 100 * 100 + 1 / 2) = 9111 / 2 by norm_num]
  norm_num

/-- Counterexample to C8: with a validly parsed time entry and an
exception in the model computation, the handler only sends the apology
message — the computed result is not shown — and the conversation state
stays WAITING_TIME instead of resetting to WAITING_MODEL_TYPE. -/
theorem c8_calc_error_counterexample :
    handleWaitingTime ("45.55")
        { state := ConvState.WAITING_TIME, modelType := some worldModelStr,
          mode := some createFileStr, name := some "A",
          ageCategory := some "Мужчина", distance := some 2000,
          boatClass := some "1х", time := none }
        (some { username := "u", startTime := "", actions := [], results := [] })
        (fun _ _ => some 390) (fun _ _ => none) (Except.error ("boom")) false =
      ({ state := ConvState.WAITING_TIME, modelType := some worldModelStr,
         mode := some createFileStr, name := some "A",
         ageCategory := some "Мужчина", distance := some 2000,
         boatClass := some "1х", time := none },
       some { username := "u", startTime := "",
              actions := ["enter_time", "error"], results := [] },
       [modelErrorMsg]) ∧
    ConvState.WAITING_TIME ≠ ConvState.WAITING_MODEL_TYPE ∧
    (∀ p : String, timeResultMsg ("45.55") p ≠ modelErrorMsg) := by
  refine ⟨?_, by decide, ?_⟩
  · rw [handleWaitingTime, if_pos parse4555_pos]
    rfl
  · intro p h
    have h4 := congrArg (fun s => s.toList.take 4) h
    simp only [timeResultMsg] at h4
    rw [show ("ваше время: " ++ "45.55" ++ "\nваша модель: " ++ p ++ "%").toList =
        ("ваше время: " ++ "45.55" ++ "\nваша модель: ").toList ++ (p ++ "%").toList
      from by simp [String.toList, String.data_append]] at h4
    rw [List.take_append_of_le_length (by decide)] at h4
    revert h4
    decide

/-- C8 as amended: on an exception during the model computation for a
validly parsed time entry, only the apology message is sent, nothing is
persisted, and the conversation state is left unchanged (no reset); the
show-result-without-persisting-and-reset behaviour belongs to the
persistence-failure branch, where the result is shown as informational,
the session keeps its previous results, and the conversation resets
fully via initUserState. -/
theorem c8_calc_error_amended :
    (∀ (text : String) (u : UserState) (sess : Option Session)
        (world russia : Table) (e : String) (saveThrows : Bool),
      0 < parseTimeToSeconds text →
      handleWaitingTime text u sess world russia (Except.error e) saveThrows =
        (u, appendAction (appendAction sess ("enter_time")) ("error"),
          [modelErrorMsg])) ∧
    (∀ (text : String) (u : UserState) (sess : Option Session)
        (world russia : Table) (mt : ℚ),
      0 < parseTimeToSeconds text → u.mode = some createFileStr →
      handleWaitingTime text u sess world russia (Except.ok mt) true =
        (initUserState,
          appendAction (appendAction sess ("enter_time")) ("calculate_model"),
          [timeResultMsg text
            (toFixed2 (calculateModelPercentage
              (lookupTable (if u.modelType = some worldModelStr then world else russia)
                u.ageCategory u.boatClass)
              u.distance (some (parseTimeToSeconds text)))),
           notSavedMsg, selectModelMsg])) ∧
    (∀ (sess : Option Session) (a : String),
      (appendAction sess a).map Session.results = sess.map Session.results) := by
  refine ⟨?_, ?_, ?_⟩
  · intro text u sess world russia e saveThrows hpos
    rw [handleWaitingTime, if_pos hpos]
  · intro text u sess world russia mt hpos hmode
    rw [handleWaitingTime, if_pos hpos]
    simp only [hmode, if_pos rfl]
    rfl
  · intro sess a
    cases sess <;> rfl

/-- Witness for C8 as amended: a concrete model-computation failure on
input "45.55" with an empty store. -/
theorem c8_calc_error_amended_witness :
    handleWaitingTime ("45.55") initUserState none (fun _ _ => none)
        (fun _ _ => none) (Except.error ("x")) false =
      (initUserState, appendAction (appendAction none ("enter_time")) ("error"),
        [modelErrorMsg]) :=
  c8_calc_error_amended.1 ("45.55") initUserState none (fun _ _ => none)
    (fun _ _ => none) ("x") false parse4555_pos

/-! ## Helper lemmas: the exporter and the stored percentage field -/

/-- Erase the stored (cached) percentage field of a Result. -/
def scrubPct (r : Result) : Result := { r with modelPercentage := "" }

theorem scrubPct_fields (r r' : Result) (h : scrubPct r = scrubPct r') :
    r.name = r'.name ∧ r.distance = r'.distance ∧ r.boatClass = r'.boatClass ∧
    r.ageCategory = r'.ageCategory ∧ r.time = r'.time ∧ r.modelTime = r'.modelTime ∧
    r.modelType = r'.modelType := by
  cases r
  cases r'
  simp only [scrubPct, Result.mk.injEq] at h
  obtain ⟨h1, h2, h3, h4, h5, h6, -, h8⟩ := h
  exact ⟨h1, h2, h3, h4, h5, h6, h8⟩

theorem addResult_scrub (G : List RowGroup) (r r' : Result)
    (h : scrubPct r = scrubPct r') : addResult G r = addResult G r' := by
  obtain ⟨h1, h2, h3, h4, h5, h6, h7⟩ := scrubPct_fields r r' h
  rw [addResult, addResult, h1, h2, h3, h4, h5, h7]

theorem foldl_addResult_scrub : ∀ (l1 l2 : List Result),
    l1.map scrubPct = l2.map scrubPct →
    ∀ G : List RowGroup, l1.foldl addResult G = l2.foldl addResult G := by
  intro l1
  induction l1 with
  | nil =>
    intro l2 h G
    cases l2 with
    | nil => rfl
    | cons b bs => simp at h
  | cons a as ih =>
    intro l2 h G
    cases l2 with
    | nil => simp at h
    | cons b bs =>
      simp only [List.map_cons, List.cons.injEq] at h
      rw [List.foldl_cons, List.foldl_cons, addResult_scrub G a b h.1]
      exact ih bs h.2 _

theorem groupResults_scrub (l1 l2 : List Result)
    (h : l1.map scrubPct = l2.map scrubPct) : groupResults l1 = groupResults l2 :=
  foldl_addResult_scrub l1 l2 h []

/-- Counterexample to C2: a session whose single Result has parameters
that recompute to 100.00% but whose stored percentage field reads 50.00;
the main worksheet emits the recomputed 100.00% for the attempt and the
average, yet the team-wide average cell of the statistics worksheet
emits 50.00%, taken from the stored field. -/
theorem c2_team_avg_counterexample :
    (exporterCore
        { username := "u", startTime := "", actions := [],
          results := [{ name := "A", distance := 2000, boatClass := "1х",
                        ageCategory := "Мужчина", time := "6:30.00",
                        modelTime := 390, modelPercentage := "50.00",
                        modelType := worldModelStr }] }
        (fun a b => if a = "Мужчина" ∧ b = "1х" then some 390 else none)
        (fun a b => if a = "Мужчина" ∧ b = "1х" then some 390 else none)).statsRows =
      [[Cell.str ("Общая статистика")],
       [Cell.str ("Количество спортсменов"), Cell.num 1],
       [Cell.str ("Общее количество результатов"), Cell.num 1],
       [Cell.str ("Средний процент от модели по команде"), Cell.str ("50.00%")]] ∧
    (exporterCore
        { username := "u", startTime := "", actions := [],
          results := [{ name := "A", distance := 2000, boatClass := "1х",
                        ageCategory := "Мужчина", time := "6:30.00",
                        modelTime := 390, modelPercentage := "50.00",
                        modelType := worldModelStr }] }
        (fun a b => if a = "Мужчина" ∧ b = "1х" then some 390 else none)
        (fun a b => if a = "Мужчина" ∧ b = "1х" then some 390 else none)).mainRows =
      [[Cell.str ("A"), Cell.num 2000, Cell.str ("1х"), Cell.str ("Мужчина"),
        Cell.str ("6:30.00"), Cell.str ("100.00%"),
        Cell.str ("6:30.00"), Cell.str ("100.00%")]] ∧
    ("50.00%" : String) ≠ "100.00%" := by
  have hparse : parseTimeToSeconds ("6:30.00") = 390 := by
    rw [show parseTimeToSeconds ("6:30.00") =
        decCombine 1 ['6'] [] * 60 + decCombine 1 ['3', '0'] ['0', '0'] from rfl]
    norm_num [decCombine, pow10, show digitsToNat (['6']) = 6 from by decide,
      show digitsToNat (['3', '0']) = 30 from by decide,
      show digitsToNat (['0', '0']) = 0 from by decide,
      show digitsToNat ([]) = 0 from rfl]
  have hcalc : calculateModelPercentage (some 390) (some 2000) (some 390) = 100 := by
    rw [calculateModelPercentage]; norm_num [jsFalsy]
  have hfix100 : toFixed2 (100 : ℚ) = "100.00" := by
    rw [toFixed2_of_floor 100 10000 (by norm_num) (by norm_num)]
    decide
  have hfix50 : toFixed2 (50 : ℚ) = "50.00" := by
    rw [toFixed2_of_floor 50 5000 (by norm_num) (by norm_num)]
    decide
  have hformat : formatTime (390 : ℚ) = "6:30.00" := by
    rw [formatTime_shape, show (⌊(390 : ℚ) / 60⌋ : ℤ) = 6 by norm_num,
      show jsMod (390 : ℚ) 60 = 30 by
        rw [jsMod, ratTrunc, if_pos (by norm_num),
          show (⌊(390 : ℚ) / 60⌋ : ℤ) = 6 by norm_num]
        norm_num,
      toFixed2_of_floor 30 3000 (by norm_num) (by norm_num)]
    decide
  have hfloat50 : jsParseFloat ("50.00") = some (50 : ℚ) := by
    rw [show jsParseFloat ("50.00") = some (decCombine 1 ['5', '0'] ['0', '0']) from rfl]
    norm_num [decCombine, pow10, show digitsToNat (['5', '0']) = 50 from by decide,
      show digitsToNat (['0', '0']) = 0 from by decide]
  have hbase : ((fun a b => if a = "Мужчина" ∧ b = "1х" then some (390 : ℚ) else none) :
      Table) ("Мужчина") ("1х") = some 390 := by norm_num
  have hjsf : jsFalsy (some (390 : ℚ)) = false := by norm_num [jsFalsy]
  refine ⟨?_, ?_, by decide⟩
  · simp only [exporterCore, teamAvgCell, List.map_cons, List.map_nil]
    rw [hfloat50]
    simp only [allSome, Option.map_some']
    rw [show avg [(50 : ℚ)] = 50 by norm_num [avg], hfix50]
    rfl
  · simp only [exporterCore]
    rw [show groupResults [{ name := "A", distance := 2000, boatClass := "1х",
                             ageCategory := "Мужчина", time := "6:30.00",
                             modelTime := 390, modelPercentage := "50.00",
                             modelType := worldModelStr }] =
      [{ name := "A", distance := 2000, boatClass := "1х",
         ageCategory := "Мужчина", modelType := worldModelStr,
         times := ["6:30.00"] }] from rfl]
    simp only [List.map_cons, List.map_nil]
    rw [show maxResultsOf [{ name := "A", distance := 2000, boatClass := "1х",
                             ageCategory := "Мужчина", modelType := worldModelStr,
                             times := ["6:30.00"] }] = 1 from rfl]
    simp only [rowCells, beq_self_eq_true, if_true, ite_self, hbase, hjsf,
      Bool.false_eq_true, if_false, List.range_succ, List.range_zero,
      List.nil_append, List.flatMap_cons, List.flatMap_nil, List.map_cons,
      List.map_nil, List.getD_cons_zero, List.length_cons, List.length_nil,
      Nat.lt_irrefl, Nat.zero_lt_one, hparse, hcalc, hfix100]
    simp only [and_self, ite_true, hjsf, Bool.false_eq_true, ite_false, hcalc,
      hfix100, Nat.zero_add, Nat.zero_lt_one, if_true, if_false]
    rw [show avg [(390 : ℚ)] = 390 by norm_num [avg],
      show avg [(100 : ℚ)] = 100 by norm_num [avg], hformat, hfix100]
    rfl

/-- C2 as amended: every percentage in the main worksheet — each
attempt's percentage and each subject's average percentage — is
recomputed from the stored reference-table variant, age category, boat
class, distance and elapsed time (the main worksheet is invariant under
arbitrary changes of the stored percentage fields); the team-wide
average of the statistics worksheet, however, is computed from the
stored modelPercentage fields, not recomputed. -/
theorem c2_exporter_amended :
    (∀ (s1 s2 : Session) (world russia : Table),
      s1.results.map scrubPct = s2.results.map scrubPct →
      (exporterCore s1 world russia).mainHeaders =
        (exporterCore s2 world russia).mainHeaders ∧
      (exporterCore s1 world russia).mainRows =
        (exporterCore s2 world russia).mainRows) ∧
    (∀ s1 s2 : Session,
      s1.results.map (fun r => r.modelPercentage) =
        s2.results.map (fun r => r.modelPercentage) →
      teamAvgCell s1.results = teamAvgCell s2.results) := by
  constructor
  · intro s1 s2 world russia h
    have hg : groupResults s1.results = groupResults s2.results :=
      groupResults_scrub _ _ h
    constructor <;> simp only [exporterCore, hg]
  · intro s1 s2 h
    rw [teamAvgCell, teamAvgCell]
    have hmap : s1.results.map (fun r => jsParseFloat r.modelPercentage) =
        s2.results.map (fun r => jsParseFloat r.modelPercentage) := by
      rw [show (fun r : Result => jsParseFloat r.modelPercentage) =
          (fun p => jsParseFloat p) ∘ (fun r : Result => r.modelPercentage) from rfl]
      rw [← List.map_map, ← List.map_map, h]
    rw [hmap]

/-- Witness for C2 as amended: two concrete one-result sessions agreeing
everywhere except the stored percentage field ("50.00" against "0.00")
produce the same main worksheet rows. -/
theorem c2_exporter_amended_witness :
    (exporterCore
        { username := "u", startTime := "", actions := [],
          results := [{ name := "A", distance := 2000, boatClass := "1х",
                        ageCategory := "Мужчина", time := "6:30.00",
                        modelTime := 390, modelPercentage := "50.00",
                        modelType := worldModelStr }] }
        (fun _ _ => none) (fun _ _ => none)).mainRows =
      (exporterCore
        { username := "u", startTime := "", actions := [],
          results := [{ name := "A", distance := 2000, boatClass := "1х",
                        ageCategory := "Мужчина", time := "6:30.00",
                        modelTime := 390, modelPercentage := "0.00",
                        modelType := worldModelStr }] }
        (fun _ _ => none) (fun _ _ => none)).mainRows :=
  (c2_exporter_amended.1 _ _ (fun _ _ => none) (fun _ _ => none) rfl).2

/-- The percentage text of one attempt cell, as rowCells computes it:
table selected by the group modelType, keyed by the group ageCategory
and boatClass, applied to the group distance and the reparsed time. -/
def attemptPct (world russia : Table) (mt age boat : String) (d : ℚ)
    (t : String) : String :=
  if jsFalsy ((if mt == worldModelStr then world else russia) age boat) then ""
  else
    toFixed2 (calculateModelPercentage
      ((if mt == worldModelStr then world else russia) age boat) (some d)
      (some (parseTimeToSeconds t)))

/-- The two trailing average cells of a data row, as rowCells computes
them. -/
def subjAvgCells (world russia : Table) (mt age boat : String) (d : ℚ)
    (times : List String) : List Cell :=
  let base := (if mt == worldModelStr then world else russia) age boat
  let ts := times.map parseTimeToSeconds
  let models := ts.map (fun u =>
    if jsFalsy base then 0
    else calculateModelPercentage base (some d) (some u))
  [Cell.str (formatTime (avg ts)), Cell.str (toFixed2 (avg models) ++ "%")]

/-- C5 as amended: for a session holding subject A with 2 attempts and
subject B with 1 attempt, the exporter emits a row for A whose 2
attempt slots are both populated (A, at the session maximum, gets no
blank pair) and a row for B with 1 populated pair and 1 blank pair, and
the team-wide average percentage is the flat mean over all 3 attempts'
stored percentages, not the mean of the two per-subject averages. -/
theorem c5_rows_shape (world russia : Table) (u st : String) (acts : List String)
    (dA d2 dB : ℚ) (bA aA mA tA1 pA1 b2 a2 m2 tA2 pA2 bB aB mB tB1 pB1 : String)
    (z1 z2 z3 : ℚ) :
    (exporterCore
        { username := u, startTime := st, actions := acts,
          results := [{ name := "A", distance := dA, boatClass := bA,
                        ageCategory := aA, time := tA1, modelTime := z1,
                        modelPercentage := pA1, modelType := mA },
                      { name := "A", distance := d2, boatClass := b2,
                        ageCategory := a2, time := tA2, modelTime := z2,
                        modelPercentage := pA2, modelType := m2 },
                      { name := "B", distance := dB, boatClass := bB,
                        ageCategory := aB, time := tB1, modelTime := z3,
                        modelPercentage := pB1, modelType := mB }] }
        world russia).mainRows =
      [[Cell.str ("A"), Cell.num dA, Cell.str bA, Cell.str aA,
        Cell.str tA1, Cell.str (attemptPct world russia mA aA bA dA tA1 ++ "%"),
        Cell.str tA2, Cell.str (attemptPct world russia mA aA bA dA tA2 ++ "%")] ++
        subjAvgCells world russia mA aA bA dA [tA1, tA2],
       [Cell.str ("B"), Cell.num dB, Cell.str bB, Cell.str aB,
        Cell.str tB1, Cell.str (attemptPct world russia mB aB bB dB tB1 ++ "%"),
        Cell.str (""), Cell.str ("")] ++
        subjAvgCells world russia mB aB bB dB [tB1]] ∧
    (∀ q1 q2 q3 : ℚ, jsParseFloat pA1 = some q1 → jsParseFloat pA2 = some q2 →
      jsParseFloat pB1 = some q3 →
      teamAvgCell [{ name := "A", distance := dA, boatClass := bA,
                     ageCategory := aA, time := tA1, modelTime := z1,
                     modelPercentage := pA1, modelType := mA },
                   { name := "A", distance := d2, boatClass := b2,
                     ageCategory := a2, time := tA2, modelTime := z2,
                     modelPercentage := pA2, modelType := m2 },
                   { name := "B", distance := dB, boatClass := bB,
                     ageCategory := aB, time := tB1, modelTime := z3,
                     modelPercentage := pB1, modelType := mB }] =
        toFixed2 (avg [q1, q2, q3]) ++ "%" ∧
      avg [q1, q2, q3] = (q1 + q2 + q3) / 3) := by
  constructor
  · rfl
  · intro q1 q2 q3 h1 h2 h3
    constructor
    · rw [teamAvgCell]
      simp only [List.map_cons, List.map_nil, h1, h2, h3, allSome,
        Option.map_some']
    · rw [avg]
      simp only [List.isEmpty_cons, List.sum_cons, List.sum_nil,
        List.length_cons, List.length_nil]
      norm_num
      ring

/-- Witness for C5 as amended: the flat team average over the three
stored percentages 100.00, 100.00 and 95.00. -/
theorem c5_rows_shape_witness :
    teamAvgCell [{ name := "A", distance := 2000, boatClass := "1х",
                   ageCategory := "Мужчина", time := "6:30.00", modelTime := 0,
                   modelPercentage := "100.00", modelType := worldModelStr },
                 { name := "A", distance := 2000, boatClass := "1х",
                   ageCategory := "Мужчина", time := "6:30.00", modelTime := 0,
                   modelPercentage := "100.00", modelType := worldModelStr },
                 { name := "B", distance := 2000, boatClass := "1х",
                   ageCategory := "Женщины", time := "7:00.00", modelTime := 0,
                   modelPercentage := "95.00", modelType := worldModelStr }] =
      toFixed2 (avg [(100 : ℚ), 100, 95]) ++ "%" ∧
    avg [(100 : ℚ), 100, 95] = (100 + 100 + 95) / 3 := by
  have h100 : jsParseFloat ("100.00") = some (100 : ℚ) := by
    rw [show jsParseFloat ("100.00") =
        some (decCombine 1 ['1', '0', '0'] ['0', '0']) from rfl]
    norm_num [decCombine, pow10,
      show digitsToNat (['1', '0', '0']) = 100 from by decide,
      show digitsToNat (['0', '0']) = 0 from by decide]
  have h95 : jsParseFloat ("95.00") = some (95 : ℚ) := by
    rw [show jsParseFloat ("95.00") =
        some (decCombine 1 ['9', '5'] ['0', '0']) from rfl]
    norm_num [decCombine, pow10,
      show digitsToNat (['9', '5']) = 95 from by decide,
      show digitsToNat (['0', '0']) = 0 from by decide]
  exact (c5_rows_shape (fun _ _ => none) (fun _ _ => none) ("u") ("") []
    2000 2000 2000 ("1х") ("Мужчина") worldModelStr ("6:30.00") ("100.00")
    ("1х") ("Мужчина") worldModelStr ("6:30.00") ("100.00")
    ("1х") ("Женщины") worldModelStr ("7:00.00") ("95.00") 0 0 0).2
    100 100 95 h100 h100 h95

/-- Helper: appending the percent sign never yields the empty string. -/
theorem append_percent_ne_empty (s : String) : s ++ "%" ≠ "" := by
  intro h
  have := congrArg (fun x => x.toList.length) h
  simp only [String.toList, String.data_append] at this
  simp at this

/-- Helper: formatTime always contains a colon, so it is never empty. -/
theorem formatTime_ne_empty (q : ℚ) : formatTime q ≠ "" := by
  rw [formatTime_shape]
  intro h
  have := congrArg (fun x => x.toList.length) h
  simp only [String.toList, String.data_append] at this
  simp at this

/-- Counterexample to C5: in a concrete session where subject A has 2
attempts (the session maximum) and subject B has 1, the row emitted for
A contains no blank cell at all — the claim's blank pair for A does not
exist — while the row for B does contain blank cells. -/
theorem c5_blank_counterexample :
    (exporterCore
        { username := "u", startTime := "", actions := [],
          results := [{ name := "A", distance := 2000, boatClass := "1х",
                        ageCategory := "Мужчина", time := "6:30.00", modelTime := 0,
                        modelPercentage := "100.00", modelType := worldModelStr },
                      { name := "A", distance := 2000, boatClass := "1х",
                        ageCategory := "Мужчина", time := "6:30.00", modelTime := 0,
                        modelPercentage := "100.00", modelType := worldModelStr },
                      { name := "B", distance := 2000, boatClass := "1х",
                        ageCategory := "Женщины", time := "7:00.00", modelTime := 0,
                        modelPercentage := "95.00", modelType := worldModelStr }] }
        (fun _ _ => none) (fun _ _ => none)).mainRows =
      [[Cell.str ("A"), Cell.num 2000, Cell.str ("1х"), Cell.str ("Мужчина"),
        Cell.str ("6:30.00"),
        Cell.str (attemptPct (fun _ _ => none) (fun _ _ => none) worldModelStr
          ("Мужчина") ("1х") 2000 ("6:30.00") ++ "%"),
        Cell.str ("6:30.00"),
        Cell.str (attemptPct (fun _ _ => none) (fun _ _ => none) worldModelStr
          ("Мужчина") ("1х") 2000 ("6:30.00") ++ "%")] ++
        subjAvgCells (fun _ _ => none) (fun _ _ => none) worldModelStr
          ("Мужчина") ("1х") 2000 ["6:30.00", "6:30.00"],
       [Cell.str ("B"), Cell.num 2000, Cell.str ("1х"), Cell.str ("Женщины"),
        Cell.str ("7:00.00"),
        Cell.str (attemptPct (fun _ _ => none) (fun _ _ => none) worldModelStr
          ("Женщины") ("1х") 2000 ("7:00.00") ++ "%"),
        Cell.str (""), Cell.str ("")] ++
        subjAvgCells (fun _ _ => none) (fun _ _ => none) worldModelStr
          ("Женщины") ("1х") 2000 ["7:00.00"]] ∧
    Cell.str ("") ∉
      ([Cell.str ("A"), Cell.num 2000, Cell.str ("1х"), Cell.str ("Мужчина"),
        Cell.str ("6:30.00"),
        Cell.str (attemptPct (fun _ _ => none) (fun _ _ => none) worldModelStr
          ("Мужчина") ("1х") 2000 ("6:30.00") ++ "%"),
        Cell.str ("6:30.00"),
        Cell.str (attemptPct (fun _ _ => none) (fun _ _ => none) worldModelStr
          ("Мужчина") ("1х") 2000 ("6:30.00") ++ "%")] ++
        subjAvgCells (fun _ _ => none) (fun _ _ => none) worldModelStr
          ("Мужчина") ("1х") 2000 ["6:30.00", "6:30.00"]) ∧
    Cell.str ("") ∈
      ([Cell.str ("B"), Cell.num 2000, Cell.str ("1х"), Cell.str ("Женщины"),
        Cell.str ("7:00.00"),
        Cell.str (attemptPct (fun _ _ => none) (fun _ _ => none) worldModelStr
          ("Женщины") ("1х") 2000 ("7:00.00") ++ "%"),
        Cell.str (""), Cell.str ("")] ++
        subjAvgCells (fun _ _ => none) (fun _ _ => none) worldModelStr
          ("Женщины") ("1х") 2000 ["7:00.00"]) := by
  refine ⟨rfl, ?_, ?_⟩
  · rw [subjAvgCells]
    simp only [List.mem_append, List.mem_cons, List.not_mem_nil, or_false,
      not_or]
    refine ⟨⟨?_, ?_, ?_, ?_, ?_, ?_, ?_, ?_⟩, ?_, ?_⟩
    · intro h; exact absurd h (by decide)
    · intro h; exact Cell.noConfusion h
    · intro h; exact absurd h (by decide)
    · intro h; exact absurd h (by decide)
    · intro h; exact absurd h (by decide)
    · intro h
      have := (Cell.str.injEq _ _).mp h
      exact append_percent_ne_empty _ this.symm
    · intro h; exact absurd h (by decide)
    · intro h
      have := (Cell.str.injEq _ _).mp h
      exact append_percent_ne_empty _ this.symm
    · intro h
      have := (Cell.str.injEq _ _).mp h
      exact formatTime_ne_empty _ this.symm
    · intro h
      have := (Cell.str.injEq _ _).mp h
      exact append_percent_ne_empty _ this.symm
  · simp

/-! ## Helper lemmas: grouping takes its parameters from the first
Result of each subject -/

/-- The first Result of the session carrying the given subject name. -/
def firstResultNamed (l : List Result) (n : String) : Option Result :=
  l.find? (fun r => r.name == n)

/-- The group entry for a given subject name. -/
def groupNamed (groups : List RowGroup) (n : String) : Option RowGroup :=
  groups.find? (fun g => g.name == n)

theorem groupNamed_cons (g : RowGroup) (gs : List RowGroup) (n : String) :
    groupNamed (g :: gs) n =
      if (g.name == n) = true then some g else groupNamed gs n := by
  by_cases h : (g.name == n) = true
  · rw [if_pos h, groupNamed]
    exact List.find?_cons_of_pos gs h
  · rw [if_neg h, groupNamed, groupNamed]
    exact List.find?_cons_of_neg gs h

theorem firstResultNamed_cons (r : Result) (rs : List Result) (n : String) :
    firstResultNamed (r :: rs) n =
      if (r.name == n) = true then some r else firstResultNamed rs n := by
  by_cases h : (r.name == n) = true
  · rw [if_pos h, firstResultNamed]
    exact List.find?_cons_of_pos rs h
  · rw [if_neg h, firstResultNamed, firstResultNamed]
    exact List.find?_cons_of_neg rs h

theorem groupNamed_map (modify : RowGroup → RowGroup)
    (hname : ∀ g, (modify g).name = g.name) (G : List RowGroup) (n : String) :
    groupNamed (G.map modify) n = (groupNamed G n).map modify := by
  induction G with
  | nil => rfl
  | cons g gs ih =>
    rw [List.map_cons, groupNamed_cons, groupNamed_cons, hname g]
    by_cases h : (g.name == n) = true
    · rw [if_pos h, if_pos h, Option.map_some']
    · rw [if_neg h, if_neg h, ih]

theorem groupNamed_append_single (G : List RowGroup) (x : RowGroup) (n : String) :
    groupNamed (G ++ [x]) n =
      (groupNamed G n).or (if (x.name == n) = true then some x else none) := by
  rw [groupNamed, List.find?_append, groupNamed]
  congr 1
  exact groupNamed_cons x [] n

theorem groupNamed_addResult (G : List RowGroup) (r : Result) (n : String) :
    groupNamed (addResult G r) n =
      if (r.name == n) = true then
        (match groupNamed G n with
         | some g => some { g with times := g.times ++ [r.time] }
         | none => some { name := r.name, distance := r.distance,
                          boatClass := r.boatClass, ageCategory := r.ageCategory,
                          modelType := r.modelType, times := [r.time] })
      else groupNamed G n := by
  have hname : ∀ g : RowGroup,
      ((if (g.name == r.name) = true then { g with times := g.times ++ [r.time] }
        else g) : RowGroup).name = g.name := by
    intro g
    by_cases h : (g.name == r.name) = true <;> simp [h]
  rw [addResult]
  by_cases hex : (G.any fun g => g.name == r.name) = true
  · rw [if_pos hex, groupNamed_map _ hname G n]
    by_cases hrn : (r.name == n) = true
    · rw [if_pos hrn]
      cases hg : groupNamed G n with
      | some g =>
        have hgname := List.find?_some hg
        simp only [beq_iff_eq] at hgname
        rw [Option.map_some']
        have hgr : (g.name == r.name) = true := by
          simp only [beq_iff_eq] at hrn ⊢
          rw [hgname, hrn]
        rw [if_pos hgr]
      | none =>
        exfalso
        rw [List.any_eq_true] at hex
        obtain ⟨g, hgmem, hgp⟩ := hex
        rw [groupNamed, List.find?_eq_none] at hg
        apply hg g hgmem
        simp only [beq_iff_eq] at hgp hrn ⊢
        rw [hgp, hrn]
    · rw [if_neg hrn]
      cases hg : groupNamed G n with
      | some g =>
        have hgname := List.find?_some hg
        simp only [beq_iff_eq] at hgname
        rw [Option.map_some']
        have hgr : ¬(g.name == r.name) = true := by
          simp only [beq_iff_eq] at hrn ⊢
          intro hc
          apply hrn
          rw [← hc, hgname]
        rw [if_neg hgr]
      | none => rfl
  · rw [if_neg hex, groupNamed_append_single,
      show ((({ name := r.name, distance := r.distance, boatClass := r.boatClass,
                ageCategory := r.ageCategory, modelType := r.modelType,
                times := [r.time] } : RowGroup)).name) = r.name from rfl]
    have hg : groupNamed G n = none ∨ ¬(r.name == n) = true := by
      by_cases hrn : (r.name == n) = true
      · left
        rw [groupNamed, List.find?_eq_none]
        intro g hgmem hgp
        apply hex
        rw [List.any_eq_true]
        refine ⟨g, hgmem, ?_⟩
        simp only [beq_iff_eq] at hgp hrn ⊢
        rw [hgp, ← hrn]
      · right; exact hrn
    by_cases hrn : (r.name == n) = true
    · rcases hg with hg | hg
      · rw [if_pos hrn, if_pos hrn]
        simp only [hg, Option.none_or]
      · exact absurd hrn hg
    · rw [if_neg hrn, if_neg hrn, Option.or_none]

theorem groupNamed_foldl_some : ∀ (l : List Result) (G : List RowGroup)
    (n : String) (g : RowGroup), groupNamed G n = some g →
    groupNamed (l.foldl addResult G) n =
      some { g with times :=
        g.times ++ (l.filter (fun r => r.name == n)).map (fun r => r.time) } := by
  intro l
  induction l with
  | nil =>
    intro G n g hg
    simp only [List.foldl_nil, List.filter_nil, List.map_nil, List.append_nil, hg]
  | cons r rs ih =>
    intro G n g hg
    rw [List.foldl_cons, List.filter_cons]
    by_cases hrn : (r.name == n) = true
    · have step := groupNamed_addResult G r n
      rw [if_pos hrn, hg] at step
      rw [ih (addResult G r) n _ step, if_pos hrn, List.map_cons]
      simp only [List.append_assoc, List.cons_append, List.nil_append]
    · have step := groupNamed_addResult G r n
      rw [if_neg hrn, hg] at step
      rw [ih (addResult G r) n g step, if_neg hrn]

theorem groupNamed_foldl_none : ∀ (l : List Result) (G : List RowGroup)
    (n : String) (f : Result), groupNamed G n = none →
    firstResultNamed l n = some f →
    groupNamed (l.foldl addResult G) n =
      some { name := f.name, distance := f.distance, boatClass := f.boatClass,
             ageCategory := f.ageCategory, modelType := f.modelType,
             times := (l.filter (fun r => r.name == n)).map (fun r => r.time) } := by
  intro l
  induction l with
  | nil =>
    intro G n f _ hf
    rw [firstResultNamed, List.find?_nil] at hf
    exact absurd hf (by simp)
  | cons r rs ih =>
    intro G n f hg hf
    rw [firstResultNamed_cons] at hf
    rw [List.foldl_cons, List.filter_cons]
    by_cases hrn : (r.name == n) = true
    · rw [if_pos hrn, Option.some.injEq] at hf
      subst hf
      have step := groupNamed_addResult G r n
      rw [if_pos hrn, hg] at step
      rw [groupNamed_foldl_some rs (addResult G r) n _ step, if_pos hrn,
        List.map_cons]
      simp only [List.cons_append, List.nil_append]
    · rw [if_neg hrn] at hf
      have step := groupNamed_addResult G r n
      rw [if_neg hrn, hg] at step
      rw [ih (addResult G r) n f step hf, if_neg hrn]

/-- C10: when several Results share a subject name, the exporter's group
for that name carries the distance, boat class, age category and variant
of the subject's first Result and every recorded attempt's time; the
emitted row displays those first-Result parameters in its leading columns
and uses them as the inputs of every recomputed per-attempt and average
percentage, so later attempts' own stored parameters are ignored. -/
theorem c10_group_params_from_first (s : Session) (world russia : Table)
    (n : String) (f : Result) (hf : firstResultNamed s.results n = some f) :
    ∃ g : RowGroup,
      groupNamed (groupResults s.results) n = some g ∧
      g.name = f.name ∧ g.distance = f.distance ∧ g.boatClass = f.boatClass ∧
      g.ageCategory = f.ageCategory ∧ g.modelType = f.modelType ∧
      g.times = (s.results.filter (fun r => r.name == n)).map (fun r => r.time) ∧
      g ∈ groupResults s.results ∧
      rowCells world russia (maxResultsOf (groupResults s.results)) g ∈
        (exporterCore s world russia).mainRows ∧
      rowCells world russia (maxResultsOf (groupResults s.results)) g =
        [Cell.str f.name, Cell.num f.distance, Cell.str f.boatClass,
         Cell.str f.ageCategory] ++
        (List.range (maxResultsOf (groupResults s.results))).flatMap (fun i =>
          if i < g.times.length then
            [Cell.str (g.times.getD i ""),
             Cell.str (attemptPct world russia f.modelType f.ageCategory
               f.boatClass f.distance (g.times.getD i "") ++ "%")]
          else [Cell.str (""), Cell.str ("")]) ++
        subjAvgCells world russia f.modelType f.ageCategory f.boatClass
          f.distance g.times := by
  have h := groupNamed_foldl_none s.results [] n f rfl hf
  refine ⟨{ name := f.name, distance := f.distance, boatClass := f.boatClass,
            ageCategory := f.ageCategory, modelType := f.modelType,
            times := (s.results.filter (fun r => r.name == n)).map
              (fun r => r.time) },
    h, rfl, rfl, rfl, rfl, rfl, rfl, ?_, ?_, rfl⟩
  · exact List.mem_of_find?_eq_some h
  · exact List.mem_map_of_mem _ (List.mem_of_find?_eq_some h)

/-- Witness for C10: a concrete session whose subject A has a second
Result with a different distance, boat class, age category and variant;
the group and row use the first Result's parameters for both attempts. -/
theorem c10_group_params_from_first_witness :
    ∃ g : RowGroup,
      groupNamed (groupResults
        [{ name := "A", distance := 2000, boatClass := "1х",
           ageCategory := "Мужчина", time := "6:30.00", modelTime := 0,
           modelPercentage := "100.00", modelType := worldModelStr },
         { name := "A", distance := 1000, boatClass := "2х",
           ageCategory := "Женщины", time := "3:00.00", modelTime := 0,
           modelPercentage := "90.00", modelType := russiaModelStr }]) ("A") =
        some g ∧
      g.name = ({ name := "A", distance := 2000, boatClass := "1х",
                  ageCategory := "Мужчина", time := "6:30.00", modelTime := 0,
                  modelPercentage := "100.00",
                  modelType := worldModelStr } : Result).name ∧
      g.distance = 2000 ∧ g.boatClass = "1х" ∧
      g.ageCategory = "Мужчина" ∧ g.modelType = worldModelStr ∧
      g.times = (([{ name := "A", distance := 2000, boatClass := "1х",
                     ageCategory := "Мужчина", time := "6:30.00", modelTime := 0,
                     modelPercentage := "100.00", modelType := worldModelStr },
                   { name := "A", distance := 1000, boatClass := "2х",
                     ageCategory := "Женщины", time := "3:00.00", modelTime := 0,
                     modelPercentage := "90.00", modelType := russiaModelStr }] :
        List Result).filter (fun r => r.name == "A")).map (fun r => r.time) := by
  obtain ⟨g, h1, h2, h3, h4, h5, h6, h7, -, -, -⟩ :=
    c10_group_params_from_first
      { username := "u", startTime := "", actions := [],
        results := [{ name := "A", distance := 2000, boatClass := "1х",
                      ageCategory := "Мужчина", time := "6:30.00", modelTime := 0,
                      modelPercentage := "100.00", modelType := worldModelStr },
                    { name := "A", distance := 1000, boatClass := "2х",
                      ageCategory := "Женщины", time := "3:00.00", modelTime := 0,
                      modelPercentage := "90.00", modelType := russiaModelStr }] }
      (fun _ _ => none) (fun _ _ => none) ("A")
      { name := "A", distance := 2000, boatClass := "1х",
        ageCategory := "Мужчина", time := "6:30.00", modelTime := 0,
        modelPercentage := "100.00", modelType := worldModelStr } rfl
  exact ⟨g, h1, h2, h3, h4, h5, h6, h7⟩

/-! ## Helper lemmas: the canonical shape of formatTime output -/

/-- The colon character of the formatTime output. -/
def colonChar : Char := ':'

theorem pad2str_toList (k : ℕ) (hk : k < 100) :
    ∃ c1 c2 : Char, (pad2str k).toList = [c1, c2] ∧
      isDigitB c1 = true ∧ isDigitB c2 = true ∧ digitsToNat [c1, c2] = k := by
  by_cases h10 : k < 10
  · refine ⟨'0', Nat.digitChar k, ?_, rfl, isDigitB_digitChar k h10, ?_⟩
    · rw [pad2str, if_pos h10, natDecStr, natDecChars_lt10 k h10]
      rfl
    · rw [show ([('0' : Char), Nat.digitChar k]) = '0' :: [Nat.digitChar k] from rfl,
        digitsToNat_cons_zero, digitsToNat_cons, digitChar_toNat k h10]
      simp only [List.foldl_nil]
      omega
  · refine ⟨Nat.digitChar (k / 10), Nat.digitChar (k % 10), ?_, ?_, ?_, ?_⟩
    · rw [pad2str, if_neg h10, natDecStr, natDecChars_lt100 k (by omega) hk]
      rfl
    · exact isDigitB_digitChar _ (by omega)
    · exact isDigitB_digitChar _ (Nat.mod_lt _ (by norm_num))
    · rw [show ([Nat.digitChar (k / 10), Nat.digitChar (k % 10)]) =
          [Nat.digitChar (k / 10)] ++ [Nat.digitChar (k % 10)] from rfl,
        digitsToNat_snoc, digitsToNat_cons, digitChar_toNat _ (by omega),
        digitChar_toNat _ (Nat.mod_lt _ (by norm_num))]
      simp only [List.foldl_nil]
      omega

theorem padStart5_toList (s : String) :
    (padStart5 s).toList =
      if s.toList.length < 5 then
        List.replicate (5 - s.toList.length) '0' ++ s.toList
      else s.toList := by
  rw [padStart5]
  by_cases h : s.toList.length < 5
  · rw [if_pos h, if_pos h]
    simp [String.toList, String.data_append]
  · rw [if_neg h, if_neg h]

theorem sec_component (q : ℚ) (n : ℤ) (hn : ⌊q * 100 + 1 / 2⌋ = n)
    (h0 : 0 ≤ n) (h6 : n ≤ 6000) :
    ∃ c1 c2 c3 c4 : Char,
      (padStart5 (toFixed2 q)).toList = [c1, c2, dotChar, c3, c4] ∧
      isDigitB c1 = true ∧ isDigitB c2 = true ∧ isDigitB c3 = true ∧
      isDigitB c4 = true ∧
      digitsToNat [c1, c2] = n.toNat / 100 ∧ digitsToNat [c3, c4] = n.toNat % 100 := by
  rw [toFixed2_of_floor q n hn h0]
  have ha : n.toNat / 100 < 100 := by omega
  have hb : n.toNat % 100 < 100 := Nat.mod_lt _ (by norm_num)
  obtain ⟨c3, c4, hp2, hd3, hd4, hv34⟩ := pad2str_toList (n.toNat % 100) hb
  have hpd : (pad2str (n.toNat % 100)).data = [c3, c4] := hp2
  have htl : (natDecStr (n.toNat / 100) ++ "." ++ pad2str (n.toNat % 100)).toList =
      natDecChars (n.toNat / 100) ++ dotChar :: [c3, c4] := by
    simp only [String.toList, String.data_append, hpd]
    rw [show (natDecStr (n.toNat / 100)).data = natDecChars (n.toNat / 100) from rfl]
    simp [dotChar, List.append_assoc]
  rw [padStart5_toList, htl]
  by_cases h10 : n.toNat / 100 < 10
  · rw [natDecChars_lt10 _ h10]
    rw [if_pos (by simp)]
    refine ⟨'0', Nat.digitChar (n.toNat / 100), c3, c4, by simp, rfl,
      isDigitB_digitChar _ h10, hd3, hd4, ?_, hv34⟩
    rw [show ([('0' : Char), Nat.digitChar (n.toNat / 100)]) =
        '0' :: [Nat.digitChar (n.toNat / 100)] from rfl,
      digitsToNat_cons_zero, digitsToNat_cons, digitChar_toNat _ h10]
    simp only [List.foldl_nil]
    omega
  · rw [natDecChars_lt100 _ (by omega) ha]
    rw [if_neg (by simp)]
    refine ⟨Nat.digitChar (n.toNat / 100 / 10), Nat.digitChar (n.toNat / 100 % 10),
      c3, c4, by simp, isDigitB_digitChar _ (by omega),
      isDigitB_digitChar _ (Nat.mod_lt _ (by norm_num)), hd3, hd4, ?_, hv34⟩
    rw [show ([Nat.digitChar (n.toNat / 100 / 10), Nat.digitChar (n.toNat / 100 % 10)]) =
        [Nat.digitChar (n.toNat / 100 / 10)] ++ [Nat.digitChar (n.toNat / 100 % 10)] from rfl,
      digitsToNat_snoc, digitsToNat_cons, digitChar_toNat _ (by omega),
      digitChar_toNat _ (Nat.mod_lt _ (by norm_num))]
    simp only [List.foldl_nil]
    omega

theorem formatTime_canonical (x : ℚ) (hx : 0 ≤ x) :
    ∃ (mc : List Char) (c1 c2 c3 c4 : Char),
      (formatTime x).toList = mc ++ colonChar :: [c1, c2, dotChar, c3, c4] ∧
      mc ≠ [] ∧ (∀ c ∈ mc, isDigitB c = true) ∧
      isDigitB c1 = true ∧ isDigitB c2 = true ∧ isDigitB c3 = true ∧
      isDigitB c4 = true ∧
      parseTimeToSeconds (formatTime x) = round2 x := by
  have hm0 : 0 ≤ ⌊x / 60⌋ :=
    Int.le_floor.mpr (by exact_mod_cast div_nonneg hx (by norm_num))
  have hr_eq : jsMod x 60 = x - 60 * ((⌊x / 60⌋ : ℤ) : ℚ) := by
    rw [jsMod, ratTrunc, if_pos (div_nonneg hx (by norm_num))]
  have hfle : ((⌊x / 60⌋ : ℤ) : ℚ) ≤ x / 60 := Int.floor_le (x / 60)
  have hflt : x / 60 < ((⌊x / 60⌋ : ℤ) : ℚ) + 1 := Int.lt_floor_add_one (x / 60)
  have hr0 : 0 ≤ jsMod x 60 := by
    rw [hr_eq]
    have h2 : 60 * ((⌊x / 60⌋ : ℤ) : ℚ) ≤ 60 * (x / 60) :=
      mul_le_mul_of_nonneg_left hfle (by norm_num)
    have h3 : 60 * (x / 60) = x := by ring
    linarith
  have hr60 : jsMod x 60 < 60 := by
    rw [hr_eq]
    have h2 : 60 * (x / 60) < 60 * (((⌊x / 60⌋ : ℤ) : ℚ) + 1) :=
      (mul_lt_mul_left (by norm_num)).mpr hflt
    have h3 : 60 * (x / 60) = x := by ring
    linarith
  have hn0 : 0 ≤ ⌊jsMod x 60 * 100 + 1 / 2⌋ :=
    Int.le_floor.mpr (by push_cast; linarith)
  have hn6 : ⌊jsMod x 60 * 100 + 1 / 2⌋ ≤ 6000 := by
    have h1 : ⌊jsMod x 60 * 100 + 1 / 2⌋ < 6001 :=
      Int.floor_lt.mpr (by push_cast; linarith)
    omega
  obtain ⟨c1, c2, c3, c4, hsec, hd1, hd2, hd3, hd4, hv12, hv34⟩ :=
    sec_component (jsMod x 60) _ rfl hn0 hn6
  have hint : intDecStr ⌊x / 60⌋ = natDecStr (⌊x / 60⌋).toNat := by
    rw [intDecStr, if_neg (by omega)]
  obtain ⟨hmne, hmdig, hmval⟩ := natDecChars_spec (⌊x / 60⌋).toNat
  have hsecd : (padStart5 (toFixed2 (jsMod x 60))).data = [c1, c2, dotChar, c3, c4] :=
    hsec
  have hlist : (formatTime x).toList =
      natDecChars (⌊x / 60⌋).toNat ++ colonChar :: [c1, c2, dotChar, c3, c4] := by
    rw [formatTime_shape, hint]
    simp only [String.toList, String.data_append, hsecd]
    rw [show (natDecStr (⌊x / 60⌋).toNat).data = natDecChars (⌊x / 60⌋).toNat from rfl]
    simp [colonChar, List.append_assoc]
  have hnocolon_sec : ∀ c ∈ [c1, c2, dotChar, c3, c4], c.toNat ≠ 58 := by
    intro c hc
    simp only [List.mem_cons, List.not_mem_nil, or_false] at hc
    rcases hc with rfl | rfl | rfl | rfl | rfl
    · exact digit_not_colon c hd1
    · exact digit_not_colon c hd2
    · rw [dotChar_code]; omega
    · exact digit_not_colon c hd3
    · exact digit_not_colon c hd4
  have hany : ((formatTime x).toList).any (fun c => decide (c.toNat = 58)) = true := by
    rw [hlist]
    simp only [List.any_append, List.any_cons]
    have : decide (colonChar.toNat = 58) = true := by decide
    rw [this]
    simp
  have hsplit : splitOnCode 58 ((formatTime x).toList) =
      [natDecChars (⌊x / 60⌋).toNat, [c1, c2, dotChar, c3, c4]] := by
    rw [hlist,
      splitOnCode_append 58 _ colonChar _
        (fun c hc => digit_not_colon c (hmdig c hc)) (by decide),
      splitOnCode_not_mem 58 _ hnocolon_sec]
  have hnum1 : jsNumber (String.mk (natDecChars (⌊x / 60⌋).toNat)) =
      some (decCombine 1 (natDecChars (⌊x / 60⌋).toNat) []) :=
    jsNumber_digits _ hmne hmdig
  have hnum2 : jsNumber (String.mk [c1, c2, dotChar, c3, c4]) =
      some (decCombine 1 [c1, c2] [c3, c4]) := by
    have h12 : ∀ c ∈ [c1, c2], isDigitB c = true := by
      intro c hc
      simp only [List.mem_cons, List.not_mem_nil, or_false] at hc
      rcases hc with rfl | rfl
      · exact hd1
      · exact hd2
    have h34 : ∀ c ∈ [c3, c4], isDigitB c = true := by
      intro c hc
      simp only [List.mem_cons, List.not_mem_nil, or_false] at hc
      rcases hc with rfl | rfl
      · exact hd3
      · exact hd4
    exact jsNumber_digits_dot [c1, c2] [c3, c4] (by simp) h12 h34
  have hparse : parseTimeToSeconds (formatTime x) =
      decCombine 1 (natDecChars (⌊x / 60⌋).toNat) [] * 60 +
        decCombine 1 [c1, c2] [c3, c4] := by
    rw [parseTimeToSeconds]
    simp only [hany, if_true, hsplit, List.map_cons, List.map_nil, hnum1, hnum2]
  have harith : decCombine 1 (natDecChars (⌊x / 60⌋).toNat) [] * 60 +
      decCombine 1 [c1, c2] [c3, c4] = round2 x := by
    rw [decCombine, decCombine, hmval, hv12, hv34, round2]
    have hx60 : x = 60 * ((⌊x / 60⌋ : ℤ) : ℚ) + jsMod x 60 := by
      rw [hr_eq]; ring
    have hfl : ⌊x * 100 + 1 / 2⌋ =
        6000 * ⌊x / 60⌋ + ⌊jsMod x 60 * 100 + 1 / 2⌋ := by
      conv_lhs => rw [hx60]
      rw [show (60 * ((⌊x / 60⌋ : ℤ) : ℚ) + jsMod x 60) * 100 + 1 / 2 =
          jsMod x 60 * 100 + 1 / 2 + ((6000 * ⌊x / 60⌋ : ℤ) : ℚ) by push_cast; ring]
      rw [Int.floor_add_int]
      ring
    rw [hfl]
    rw [show digitsToNat ([] : List Char) = 0 from rfl]
    simp only [List.length_cons, List.length_nil, pow10]
    have hm0b := hm0
    have hn0b := hn0
    generalize hM : ⌊x / 60⌋ = M at hm0b ⊢
    generalize hN : ⌊jsMod x 60 * 100 + 1 / 2⌋ = N at hn0b ⊢
    have hMq : ((M.toNat : ℕ) : ℚ) = ((M : ℤ) : ℚ) := by
      exact_mod_cast congrArg (fun i : ℤ => (i : ℚ)) (Int.toNat_of_nonneg hm0b)
    have hNsplit : ((N.toNat / 100 : ℕ) : ℚ) * 100 + ((N.toNat % 100 : ℕ) : ℚ) =
        ((N : ℤ) : ℚ) := by
      have h1 : N.toNat / 100 * 100 + N.toNat % 100 = N.toNat := by omega
      have h2 : ((N.toNat : ℕ) : ℚ) = ((N : ℤ) : ℚ) := by
        exact_mod_cast congrArg (fun i : ℤ => (i : ℚ)) (Int.toNat_of_nonneg hn0b)
      rw [← h2]
      exact_mod_cast h1
    push_cast
    push_cast at hMq hNsplit
    field_simp
    linarith [hMq, hNsplit]
  exact ⟨natDecChars (⌊x / 60⌋).toNat, c1, c2, c3, c4, hlist, hmne, hmdig,
    hd1, hd2, hd3, hd4, hparse.trans harith⟩

/-- A non-empty group of decimal digit characters. -/
def digitsStr (l : List Char) : Prop := l ≠ [] ∧ ∀ c ∈ l, isDigitB c = true

/-- Modelled from the spec (section 4.2): the three supported textual
time shapes — plain seconds "SS" or "SS.ss", minute:second "M:SS" or
"M:SS.ss", and minute-dot-second-dot-hundredths "M.SS.ss" — with
non-empty decimal digit groups.  This predicate only states which inputs
count as valid time strings for the round-trip property; the parser
itself is embedded from the source. -/
def specValidTimeShape (s : String) : Prop :=
  (∃ a : List Char, digitsStr a ∧ s.toList = a) ∨
  (∃ a b : List Char, digitsStr a ∧ digitsStr b ∧
    s.toList = a ++ dotChar :: b) ∨
  (∃ a b : List Char, digitsStr a ∧ digitsStr b ∧
    s.toList = a ++ colonChar :: b) ∨
  (∃ a b c : List Char, digitsStr a ∧ digitsStr b ∧ digitsStr c ∧
    s.toList = a ++ colonChar :: (b ++ dotChar :: c)) ∨
  (∃ a b c : List Char, digitsStr a ∧ digitsStr b ∧ digitsStr c ∧
    s.toList = a ++ dotChar :: (b ++ dotChar :: c))

theorem digits_no_colon (l : List Char) (h : ∀ c ∈ l, isDigitB c = true) :
    (l.any fun c => decide (c.toNat = 58)) = false := by
  rw [List.any_eq_false]
  intro c hc
  simp only [decide_eq_true_iff]
  exact digit_not_colon c (h c hc)

theorem dot_tail_no_colon (b : List Char) (hb : ∀ c ∈ b, isDigitB c = true) :
    ((dotChar :: b).any fun c => decide (c.toNat = 58)) = false := by
  rw [List.any_cons, digits_no_colon b hb]
  simp [dotChar]

theorem specValid_parse_nonneg (s : String) (h : specValidTimeShape s) :
    0 ≤ parseTimeToSeconds s := by
  cases s with
  | mk data =>
  rcases h with ⟨a, ⟨hane, hadig⟩, hs⟩ |
    ⟨a, b, ⟨hane, hadig⟩, ⟨hbne, hbdig⟩, hs⟩ |
    ⟨a, b, ⟨hane, hadig⟩, ⟨hbne, hbdig⟩, hs⟩ |
    ⟨a, b, c, ⟨hane, hadig⟩, ⟨hbne, hbdig⟩, ⟨hcne, hcdig⟩, hs⟩ |
    ⟨a, b, c, ⟨hane, hadig⟩, ⟨hbne, hbdig⟩, ⟨hcne, hcdig⟩, hs⟩
  all_goals rw [show (String.mk data).toList = data from rfl] at hs
  all_goals subst hs
  · -- plain digits
    rw [parseTimeToSeconds]
    simp only [show (String.mk data).toList = data from rfl]
    rw [digits_no_colon data hadig]
    simp only [Bool.false_eq_true, if_false]
    rw [splitOnCode_not_mem 46 data (fun x hx => digit_not_dot x (hadig x hx))]
    rw [if_neg (by norm_num)]
    rw [jsParseFloat_digits data hane hadig]
    exact round2_nonneg _ (decCombine_one_nonneg data [])
  · -- digits dot digits
    rw [parseTimeToSeconds]
    simp only [show (String.mk (a ++ dotChar :: b)).toList = a ++ dotChar :: b from rfl]
    rw [show ((a ++ dotChar :: b).any fun x => decide (x.toNat = 58)) = false by
      rw [List.any_append, digits_no_colon a hadig, dot_tail_no_colon b hbdig]
      rfl]
    simp only [Bool.false_eq_true, if_false]
    rw [splitOnCode_append 46 a dotChar b
        (fun x hx => digit_not_dot x (hadig x hx)) dotChar_code,
      splitOnCode_not_mem 46 b (fun x hx => digit_not_dot x (hbdig x hx))]
    rw [if_neg (by norm_num)]
    rw [jsParseFloat_digits_dot a b hane hadig hbdig]
    exact round2_nonneg _ (decCombine_one_nonneg a b)
  · -- digits colon digits
    rw [parseTimeToSeconds]
    simp only [show (String.mk (a ++ colonChar :: b)).toList = a ++ colonChar :: b
      from rfl]
    rw [show ((a ++ colonChar :: b).any fun x => decide (x.toNat = 58)) = true by
      simp only [List.any_append, List.any_cons]
      rw [show decide (colonChar.toNat = 58) = true from rfl]
      simp]
    rw [if_pos rfl]
    rw [splitOnCode_append 58 a colonChar b
        (fun x hx => digit_not_colon x (hadig x hx)) (by decide),
      splitOnCode_not_mem 58 b (fun x hx => digit_not_colon x (hbdig x hx))]
    simp only [List.map_cons, List.map_nil]
    rw [jsNumber_digits a hane hadig, jsNumber_digits b hbne hbdig]
    have h1 := decCombine_one_nonneg a ([] : List Char)
    have h2 := decCombine_one_nonneg b ([] : List Char)
    positivity
  · -- digits colon (digits dot digits)
    rw [parseTimeToSeconds]
    simp only [show (String.mk (a ++ colonChar :: (b ++ dotChar :: c))).toList =
      a ++ colonChar :: (b ++ dotChar :: c) from rfl]
    rw [show ((a ++ colonChar :: (b ++ dotChar :: c)).any
        fun x => decide (x.toNat = 58)) = true by
      simp only [List.any_append, List.any_cons]
      rw [show decide (colonChar.toNat = 58) = true from rfl]
      simp]
    rw [if_pos rfl]
    rw [splitOnCode_append 58 a colonChar (b ++ dotChar :: c)
        (fun x hx => digit_not_colon x (hadig x hx)) (by decide)]
    rw [splitOnCode_not_mem 58 (b ++ dotChar :: c) (by
      intro x hx
      rw [List.mem_append, List.mem_cons] at hx
      rcases hx with hx | hx | hx
      · exact digit_not_colon x (hbdig x hx)
      · rw [hx, dotChar_code]; omega
      · exact digit_not_colon x (hcdig x hx))]
    simp only [List.map_cons, List.map_nil]
    rw [jsNumber_digits a hane hadig, jsNumber_digits_dot b c hbne hbdig hcdig]
    have h1 := decCombine_one_nonneg a ([] : List Char)
    have h2 := decCombine_one_nonneg b c
    positivity
  · -- digits dot digits dot digits
    rw [parseTimeToSeconds]
    simp only [show (String.mk (a ++ dotChar :: (b ++ dotChar :: c))).toList =
      a ++ dotChar :: (b ++ dotChar :: c) from rfl]
    rw [show ((a ++ dotChar :: (b ++ dotChar :: c)).any
        fun x => decide (x.toNat = 58)) = false by
      rw [List.any_append, List.any_cons, digits_no_colon a hadig,
        List.any_append, List.any_cons, digits_no_colon b hbdig,
        digits_no_colon c hcdig]
      rfl]
    simp only [Bool.false_eq_true, if_false]
    rw [splitOnCode_append 46 a dotChar (b ++ dotChar :: c)
        (fun x hx => digit_not_dot x (hadig x hx)) dotChar_code,
      splitOnCode_append 46 b dotChar c
        (fun x hx => digit_not_dot x (hbdig x hx)) dotChar_code,
      splitOnCode_not_mem 46 c (fun x hx => digit_not_dot x (hcdig x hx))]
    rw [if_pos (show ([a, b, c] : List (List Char)).length = 3 by simp)]
    show 0 ≤ ((match jsParseInt (String.mk a),
        jsParseFloat (String.mk (b ++ dotChar :: c)) with
      | some m, some sec => m * 60 + sec
      | _, _ => 0) : ℚ)
    rw [jsParseInt_digits a hane hadig, jsParseFloat_digits_dot b c hbne hbdig hcdig]
    have h1 := decCombine_one_nonneg a ([] : List Char)
    have h2 := decCombine_one_nonneg b c
    positivity

/-- C4: the time codec round-trips.  For every non-negative number of
seconds x, parsing the formatted string gives back x rounded to 2
decimal places (hence exactly x whenever x already has at most 2
decimals), and for every valid time string s of the three supported
shapes, formatTime (parse s) is a canonical minutes:seconds.hundredths
string whose seconds component is zero-padded to width 5 including the
decimal point (two digits, a dot, two digits), and it reparses to the
same numeric value within 0.01. -/
theorem c4_codec_round_trip :
    (∀ x : ℚ, 0 ≤ x → parseTimeToSeconds (formatTime x) = round2 x) ∧
    (∀ x : ℚ, 0 ≤ x → round2 x = x → parseTimeToSeconds (formatTime x) = x) ∧
    (∀ s : String, specValidTimeShape s →
      (∃ (mc : List Char) (c1 c2 c3 c4 : Char),
        (formatTime (parseTimeToSeconds s)).toList =
          mc ++ colonChar :: [c1, c2, dotChar, c3, c4] ∧
        mc ≠ [] ∧ (∀ c ∈ mc, isDigitB c = true) ∧ isDigitB c1 = true ∧
        isDigitB c2 = true ∧ isDigitB c3 = true ∧ isDigitB c4 = true) ∧
      |parseTimeToSeconds (formatTime (parseTimeToSeconds s)) -
          parseTimeToSeconds s| ≤ 1 / 100) := by
  have part1 : ∀ x : ℚ, 0 ≤ x → parseTimeToSeconds (formatTime x) = round2 x := by
    intro x hx
    obtain ⟨mc, c1, c2, c3, c4, -, -, -, -, -, -, -, h⟩ := formatTime_canonical x hx
    exact h
  refine ⟨part1, ?_, ?_⟩
  · intro x hx hr
    rw [part1 x hx, hr]
  · intro s hs
    have hnn := specValid_parse_nonneg s hs
    obtain ⟨mc, c1, c2, c3, c4, hlist, hmne, hmdig, hd1, hd2, hd3, hd4, hparse⟩ :=
      formatTime_canonical (parseTimeToSeconds s) hnn
    refine ⟨⟨mc, c1, c2, c3, c4, hlist, hmne, hmdig, hd1, hd2, hd3, hd4⟩, ?_⟩
    rw [hparse]
    exact le_trans (abs_round2_sub (parseTimeToSeconds s)) (by norm_num)

/-- Witness for C4: the format-then-parse direction at 45.55 seconds and
the parse-then-format direction at the concrete string "7:45.55". -/
theorem c4_codec_round_trip_witness :
    parseTimeToSeconds (formatTime (4555 / 100)) = round2 (4555 / 100) ∧
    |parseTimeToSeconds (formatTime (parseTimeToSeconds ("7:45.55"))) -
        parseTimeToSeconds ("7:45.55")| ≤ 1 / 100 := by
  have hshape : specValidTimeShape ("7:45.55") :=
    Or.inr (Or.inr (Or.inr (Or.inl
      ⟨['7'], ['4', '5'], ['5', '5'], ⟨by decide, by decide⟩,
        ⟨by decide, by decide⟩, ⟨by decide, by decide⟩, rfl⟩)))
  exact ⟨c4_codec_round_trip.1 (4555 / 100) (by norm_num),
    (c4_codec_round_trip.2.2 ("7:45.55") hshape).2⟩
